import Mathlib

/-!
Verification of the pair-programming backend's real-time collaboration core.

The development shallowly embeds `src/backend/app/websocket/connection_manager.py`
(`ConnectionManager` and its helpers), the durable-room service
`src/backend/app/services/room_service.py`, and the websocket router
`src/backend/app/websocket/websocket_router.py` as pure Lean functions over an
explicit state.  Python dicts become association lists, Python sets become
duplicate-free lists, websockets become opaque `Nat` identifiers, and the
effect of `await connection.send_json(...)` either succeeding or raising is
modelled by an environment function `fails : WS → Bool` saying which sockets'
sends raise.  Values produced by the environment (`datetime.utcnow()`,
`uuid.uuid4()`) are passed in as explicit parameters.
-/

namespace PairProg

/-! ### Association-list primitives (the embedding of Python `dict`). -/

/-- Python `d.get(k)` / `k in d`: first value bound to `k`, if any. -/
def alookup {κ α : Type} [BEq κ] (l : List (κ × α)) (k : κ) : Option α :=
  (l.find? (fun p => p.1 == k)).map Prod.snd

/-- Python `del d[k]`: remove every binding of `k`. -/
def aerase {κ α : Type} [BEq κ] (l : List (κ × α)) (k : κ) : List (κ × α) :=
  l.filter (fun p => !(p.1 == k))

/-- Python `d[k] = v`: bind `k` to `v` (dropping any previous binding). -/
def aput {κ α : Type} [BEq κ] (l : List (κ × α)) (k : κ) (v : α) : List (κ × α) :=
  (k, v) :: aerase l k

theorem alookup_nil {κ α : Type} [BEq κ] (k : κ) :
    alookup ([] : List (κ × α)) k = none := rfl

theorem alookup_cons {κ α : Type} [BEq κ] (p : κ × α) (t : List (κ × α)) (k : κ) :
    alookup (p :: t) k = if p.1 == k then some p.2 else alookup t k := by
  by_cases h : (p.1 == k) = true
  · simp [alookup, List.find?_cons_of_pos, h]
  · simp only [Bool.not_eq_true] at h
    simp [alookup, List.find?_cons_of_neg, h]

theorem aerase_cons {κ α : Type} [BEq κ] (p : κ × α) (t : List (κ × α)) (k : κ) :
    aerase (p :: t) k = if p.1 == k then aerase t k else p :: aerase t k := by
  by_cases h : (p.1 == k) = true <;> simp [aerase, List.filter_cons, h]

theorem alookup_aerase {κ α : Type} [BEq κ] [LawfulBEq κ] [DecidableEq κ]
    (l : List (κ × α)) (k k' : κ) :
    alookup (aerase l k) k' = if k' = k then none else alookup l k' := by
  induction l with
  | nil => simp [alookup, aerase]
  | cons p t ih =>
      rw [aerase_cons]
      by_cases hpk : (p.1 == k) = true
      · rw [if_pos hpk, ih]
        by_cases hk : k' = k
        · simp [hk]
        · have hpk' : (p.1 == k') = false := by
            rw [beq_eq_false_iff_ne, eq_of_beq hpk]
            exact fun h => hk h.symm
          rw [if_neg hk, if_neg hk, alookup_cons, hpk']
          simp
      · simp only [Bool.not_eq_true] at hpk
        rw [hpk]
        simp only [Bool.false_eq_true, if_false, alookup_cons]
        by_cases hpk' : (p.1 == k') = true
        · have hk : ¬ k' = k := by
            intro h
            rw [beq_eq_false_iff_ne] at hpk
            exact hpk ((eq_of_beq hpk').trans h)
          simp [hpk', hk]
        · simp only [Bool.not_eq_true] at hpk'
          simp [hpk', ih]

theorem alookup_aput {κ α : Type} [BEq κ] [LawfulBEq κ] [DecidableEq κ]
    (l : List (κ × α)) (k k' : κ) (v : α) :
    alookup (aput l k v) k' = if k' = k then some v else alookup l k' := by
  rw [aput, alookup_cons]
  by_cases hk : k' = k
  · simp [hk]
  · have hb : (k == k') = false := by
      rw [beq_eq_false_iff_ne]
      exact fun h => hk h.symm
    rw [hb]
    simp only [Bool.false_eq_true, if_false]
    rw [alookup_aerase, if_neg hk, if_neg hk]

theorem aerase_aput {κ α : Type} [BEq κ] [LawfulBEq κ]
    (l : List (κ × α)) (k : κ) (v : α) :
    aerase (aput l k v) k = aerase l k := by
  simp [aput, aerase, List.filter_filter]

theorem aput_aput {κ α : Type} [BEq κ] [LawfulBEq κ]
    (l : List (κ × α)) (k : κ) (v w : α) :
    aput (aput l k v) k w = aput l k w := by
  simp [aput, aerase, List.filter_filter]

theorem aerase_aerase {κ α : Type} [BEq κ] [LawfulBEq κ]
    (l : List (κ × α)) (k : κ) :
    aerase (aerase l k) k = aerase l k := by
  simp [aerase, List.filter_filter]

/-! ### Data model, from `connection_manager.py` and `models/room.py`. -/

/-- Websockets are opaque identities. -/
abbrev WS := Nat

abbrev RoomId := String
abbrev UserId := String

/-- `class User` (its `to_dict` is a field-for-field repackaging). -/
structure User where
  id : UserId
  username : String
  color : String
  is_typing : Bool
  last_active : String
deriving DecidableEq, Repr

/-- `class ChatMessage` (its `to_dict` is a field-for-field repackaging). -/
structure ChatMessage where
  id : String
  user_id : UserId
  username : String
  content : String
  timestamp : String
  type : String
deriving DecidableEq, Repr

/-- One entry of `user_cursors[room_id]`: the dict literal
`{"position": ..., "selection": ..., "username": ..., "color": ...}`.
The selection payload is opaque client data, kept abstract as a string. -/
structure Cursor where
  position : Int
  selection : Option String
  username : String
  color : String
deriving DecidableEq, Repr

/-- One entry of `connection_info`. -/
structure ConnInfo where
  room_id : RoomId
  user_id : UserId
  username : String
  color : String
  connected_at : String
deriving DecidableEq, Repr

/-- The whole mutable state of `ConnectionManager.__init__`. -/
structure CMState where
  active_connections : List (RoomId × List WS)
  room_code_cache : List (RoomId × String)
  room_language_cache : List (RoomId × String)
  user_cursors : List (RoomId × List (UserId × Cursor))
  connection_info : List (WS × ConnInfo)
  room_users : List (RoomId × List (UserId × User))
  room_chat_history : List (RoomId × List ChatMessage)
  room_typing_users : List (RoomId × List UserId)
deriving DecidableEq, Repr

/-- A fresh `ConnectionManager()`. -/
def initialCM : CMState := ⟨[], [], [], [], [], [], [], []⟩

/-- Lookup in a two-level dict, `none` when either key is missing. -/
def dget2 {α : Type} (m : List (RoomId × List (UserId × α))) (r : RoomId)
    (u : UserId) : Option α :=
  match alookup m r with
  | some d => alookup d u
  | none => none

/-- `m[r]` for a two-level dict whose room key is known present
(defaulting to the empty dict otherwise). -/
def dinner {α : Type} (m : List (RoomId × List (UserId × α))) (r : RoomId) :
    List (UserId × α) :=
  (alookup m r).getD []

/-- The outbound frames the server constructs (the dict literals passed to
`send_json` / `broadcast_to_room`), one constructor per `"type"` value. -/
inductive Frame where
  | room_state (code language : String) (activeUsers : Nat)
      (users : List (UserId × User)) (cursors : List (UserId × Cursor))
      (userId : UserId) (chatHistory : List ChatMessage)
  | user_joined (userId username color : String) (activeUsers : Nat)
      (users : List (UserId × User)) (cursors : List (UserId × Cursor))
  | code_update (code : String) (cursorPosition : Int)
      (userId username timestamp : String)
  | cursor_update (userId username : String) (cursorPosition : Int)
      (selection : Option String)
  | chat_message (message : ChatMessage)
  | typing_start (userId username : String)
  | typing_stop (userId username : String)
  | language_change (language userId username : String)
  | user_left (userId username : String) (activeUsers : Nat)
  | error (message : String)
  | pong
deriving DecidableEq, Repr

/-- Default code served when a room has no cached code
(`room_code_cache.get(room_id, ...)` in `connect` / `get_room_code`). -/
def defaultCode : String :=
  "# Welcome to Pair Programming!\n# Start coding together...\n\n"

/-- `self.room_code_cache.get(room_id, defaultCode)`. -/
def getCodeCache (s : CMState) (room_id : RoomId) : String :=
  (alookup s.room_code_cache room_id).getD defaultCode

/-- `self.room_language_cache.get(room_id, "python")`. -/
def getLangCache (s : CMState) (room_id : RoomId) : String :=
  (alookup s.room_language_cache room_id).getD "python"

/-! ### ConnectionManager operations.

Each operation returns the new state together with the list of
`(recipient socket, frame)` pairs successfully delivered, in order. -/

/-- `ConnectionManager.broadcast_to_room`.  `fails c = true` means
`c.send_json` raises; the `except` swallows it and the socket is collected
into `disconnected` and discarded from the room afterwards. -/
def broadcast_to_room (fails : WS → Bool) (s : CMState) (room_id : RoomId)
    (message : Frame) (exclude : Option WS) : CMState × List (WS × Frame) :=
  match alookup s.active_connections room_id with
  | none => (s, [])
  | some conns =>
      let attempted := conns.filter (fun c => !(some c == exclude))
      let delivered := attempted.filter (fun c => !(fails c))
      let remaining := conns.filter (fun c => (some c == exclude) || !(fails c))
      ({ s with active_connections := aput s.active_connections room_id remaining },
       delivered.map (fun c => (c, message)))

/-- `ConnectionManager.connect`.  The returned `Bool` is `true` when the
welcome `send_json` raised, in which case the `except` branch ran and the
exception was re-raised (`raise`). -/
def connect (fails : WS → Bool) (now : String) (s : CMState) (websocket : WS)
    (room_id : RoomId) (user_id : UserId) (username color : String) :
    CMState × List (WS × Frame) × Bool :=
  -- "Initialize room if it doesn't exist"
  let s :=
    if (alookup s.active_connections room_id).isNone then
      { s with active_connections := aput s.active_connections room_id [],
               user_cursors := aput s.user_cursors room_id [],
               room_users := aput s.room_users room_id [],
               room_chat_history := aput s.room_chat_history room_id [],
               room_typing_users := aput s.room_typing_users room_id [] }
    else s
  -- "Add connection to room" (set add)
  let conns := (alookup s.active_connections room_id).getD []
  let conns := if conns.contains websocket then conns else conns ++ [websocket]
  let s := { s with active_connections := aput s.active_connections room_id conns }
  -- "Create user"
  let user : User := ⟨user_id, username, color, false, now⟩
  let ru := aput s.room_users room_id (aput (dinner s.room_users room_id) user_id user)
  let s := { s with room_users := ru }
  -- "Store connection info"
  let ci := aput s.connection_info websocket (⟨room_id, user_id, username, color, now⟩ : ConnInfo)
  let s := { s with connection_info := ci }
  -- "Initialize user cursor"
  let uc := aput s.user_cursors room_id (aput (dinner s.user_cursors room_id) user_id (⟨0, none, username, color⟩ : Cursor))
  let s := { s with user_cursors := uc }
  let users_dict := dinner s.room_users room_id
  let chat_history := (alookup s.room_chat_history room_id).getD []
  let welcome : Frame := .room_state (getCodeCache s room_id) (getLangCache s room_id)
      conns.length users_dict (dinner s.user_cursors room_id) user_id chat_history
  if fails websocket then
    -- `except`: "Connection may have been closed, clean up", then `raise`
    let ac := aput s.active_connections room_id (conns.filter (fun c => !(c == websocket)))
    let s := { s with active_connections := ac }
    let s :=
      if (dget2 s.room_users room_id user_id).isSome then
        let ru := aput s.room_users room_id (aerase (dinner s.room_users room_id) user_id)
        { s with room_users := ru }
      else s
    let s :=
      if (dget2 s.user_cursors room_id user_id).isSome then
        let uc := aput s.user_cursors room_id (aerase (dinner s.user_cursors room_id) user_id)
        { s with user_cursors := uc }
      else s
    (s, [], true)
  else
    -- "Notify others in the room"
    let joined : Frame := .user_joined user_id username color conns.length
        users_dict (dinner s.user_cursors room_id)
    let (s, out) := broadcast_to_room fails s room_id joined (some websocket)
    (s, (websocket, welcome) :: out, false)

/-- `ConnectionManager.disconnect`; returns the leaving user's username. -/
def disconnect (s : CMState) (websocket : WS) (room_id : RoomId)
    (user_id : UserId) : CMState × String :=
  match alookup s.active_connections room_id with
  | none =>
      ({ s with connection_info := aerase s.connection_info websocket }, "Unknown")
  | some conns =>
      let ac := aput s.active_connections room_id (conns.filter (fun c => !(c == websocket)))
      let s := { s with active_connections := ac }
      -- "Get username before removing"
      let (s, username) :=
        match dget2 s.room_users room_id user_id with
        | some u =>
            let ru := aput s.room_users room_id (aerase (dinner s.room_users room_id) user_id)
            ({ s with room_users := ru }, u.username)
        | none => (s, "Unknown")
      -- "Remove user cursor"
      let s :=
        if (dget2 s.user_cursors room_id user_id).isSome then
          let uc := aput s.user_cursors room_id (aerase (dinner s.user_cursors room_id) user_id)
          { s with user_cursors := uc }
        else s
      -- "Remove from typing users"
      let s :=
        match alookup s.room_typing_users room_id with
        | some ts =>
            let tu := aput s.room_typing_users room_id (ts.filter (fun u => !(u == user_id)))
            { s with room_typing_users := tu }
        | none => s
      -- "Clean up empty rooms ... Keep code cache and chat history"
      let s :=
        if ((alookup s.active_connections room_id).getD []).isEmpty then
          { s with active_connections := aerase s.active_connections room_id,
                   user_cursors := aerase s.user_cursors room_id,
                   room_users := aerase s.room_users room_id,
                   room_typing_users := aerase s.room_typing_users room_id }
        else s
      -- "Remove connection info"
      ({ s with connection_info := aerase s.connection_info websocket }, username)

/-- `ConnectionManager.handle_code_update`. -/
def handle_code_update (fails : WS → Bool) (now : String) (s : CMState)
    (room_id : RoomId) (user_id : UserId) (username code : String)
    (cursor_position : Int) (websocket : WS) : CMState × List (WS × Frame) :=
  -- "Update code cache"
  let s := { s with room_code_cache := aput s.room_code_cache room_id code }
  -- "Update user cursor"
  let s :=
    match alookup s.user_cursors room_id with
    | some d =>
        let color := match alookup d user_id with
          | some cur => cur.color
          | none => "#ffffff"
        let uc := aput s.user_cursors room_id (aput d user_id (⟨cursor_position, none, username, color⟩ : Cursor))
        { s with user_cursors := uc }
    | none => s
  -- "Update last active"
  let s :=
    match dget2 s.room_users room_id user_id with
    | some u =>
        let ru := aput s.room_users room_id (aput (dinner s.room_users room_id) user_id { u with last_active := now })
        { s with room_users := ru }
    | none => s
  -- "Broadcast to other users"
  broadcast_to_room fails s room_id
    (.code_update code cursor_position user_id username now) (some websocket)

/-- `ConnectionManager.handle_cursor_update`. -/
def handle_cursor_update (fails : WS → Bool) (s : CMState) (room_id : RoomId)
    (user_id : UserId) (username : String) (cursor_position : Int)
    (selection : Option String) (websocket : WS) : CMState × List (WS × Frame) :=
  let s :=
    match alookup s.user_cursors room_id with
    | some d =>
        let color := match alookup d user_id with
          | some cur => cur.color
          | none => "#ffffff"
        let uc := aput s.user_cursors room_id (aput d user_id (⟨cursor_position, selection, username, color⟩ : Cursor))
        { s with user_cursors := uc }
    | none => s
  broadcast_to_room fails s room_id
    (.cursor_update user_id username cursor_position selection) (some websocket)

/-- `x[-50:]` — the most recent `n` elements. -/
def lastN {α : Type} (n : Nat) (l : List α) : List α :=
  l.drop (l.length - n)

/-- `ConnectionManager.handle_chat_message`; `msg_id` is the generated
`uuid.uuid4()` and `now` the timestamp. -/
def handle_chat_message (fails : WS → Bool) (msg_id now : String) (s : CMState)
    (room_id : RoomId) (user_id : UserId) (username content msg_type : String) :
    CMState × List (WS × Frame) :=
  let msg : ChatMessage := ⟨msg_id, user_id, username, content, now, msg_type⟩
  -- "Store in history (keep last 50 messages)"
  let hist := (alookup s.room_chat_history room_id).getD []
  let hist := hist ++ [msg]
  let hist := if 50 < hist.length then lastN 50 hist else hist
  let s := { s with room_chat_history := aput s.room_chat_history room_id hist }
  -- "Broadcast to all users including sender"
  broadcast_to_room fails s room_id (.chat_message msg) none

/-- `ConnectionManager.handle_typing_start`. -/
def handle_typing_start (fails : WS → Bool) (s : CMState) (room_id : RoomId)
    (user_id : UserId) (username : String) (websocket : WS) :
    CMState × List (WS × Frame) :=
  let ts := (alookup s.room_typing_users room_id).getD []
  let ts := if ts.contains user_id then ts else ts ++ [user_id]
  let s := { s with room_typing_users := aput s.room_typing_users room_id ts }
  let s :=
    match dget2 s.room_users room_id user_id with
    | some u =>
        let ru := aput s.room_users room_id (aput (dinner s.room_users room_id) user_id { u with is_typing := true })
        { s with room_users := ru }
    | none => s
  broadcast_to_room fails s room_id (.typing_start user_id username) (some websocket)

/-- `ConnectionManager.handle_typing_stop`. -/
def handle_typing_stop (fails : WS → Bool) (s : CMState) (room_id : RoomId)
    (user_id : UserId) (username : String) (websocket : WS) :
    CMState × List (WS × Frame) :=
  let s :=
    match alookup s.room_typing_users room_id with
    | some ts =>
        let tu := aput s.room_typing_users room_id (ts.filter (fun u => !(u == user_id)))
        { s with room_typing_users := tu }
    | none => s
  let s :=
    match dget2 s.room_users room_id user_id with
    | some u =>
        let ru := aput s.room_users room_id (aput (dinner s.room_users room_id) user_id { u with is_typing := false })
        { s with room_users := ru }
    | none => s
  broadcast_to_room fails s room_id (.typing_stop user_id username) (some websocket)

/-- `ConnectionManager.handle_language_change`. -/
def handle_language_change (fails : WS → Bool) (s : CMState) (room_id : RoomId)
    (user_id : UserId) (username language : String) : CMState × List (WS × Frame) :=
  let s := { s with room_language_cache := aput s.room_language_cache room_id language }
  broadcast_to_room fails s room_id
    (.language_change language user_id username) none

/-- `ConnectionManager.get_room_users_count`. -/
def get_room_users_count (s : CMState) (room_id : RoomId) : Nat :=
  match alookup s.active_connections room_id with
  | some conns => conns.length
  | none => 0

/-- `ConnectionManager.get_room_code`. -/
def get_room_code (s : CMState) (room_id : RoomId) : String :=
  (alookup s.room_code_cache room_id).getD defaultCode

/-- `ConnectionManager.set_room_code`. -/
def set_room_code (s : CMState) (room_id : RoomId) (code : String) : CMState :=
  { s with room_code_cache := aput s.room_code_cache room_id code }

/-- `ConnectionManager.set_room_language`. -/
def set_room_language (s : CMState) (room_id : RoomId) (language : String) : CMState :=
  { s with room_language_cache := aput s.room_language_cache room_id language }

/-! ### Durable store, from `models/room.py` and `services/room_service.py`.

The database is the table of `Room` rows, keyed by room id (timestamps,
irrelevant to the claims, are omitted). -/

/-- The durable `Room` row. -/
structure DRoom where
  code_content : String
  language : String
  active_users : Int
deriving DecidableEq, Repr

abbrev DB := List (RoomId × DRoom)

namespace RoomService

/-- `RoomService.get_room`. -/
def get_room (db : DB) (room_id : RoomId) : Option DRoom :=
  alookup db room_id

/-- `RoomService.update_room_code`. -/
def update_room_code (db : DB) (room_id : RoomId) (code : String) : DB :=
  match get_room db room_id with
  | some room => aput db room_id { room with code_content := code }
  | none => db

/-- `RoomService.update_room_language`. -/
def update_room_language (db : DB) (room_id : RoomId) (language : String) : DB :=
  match get_room db room_id with
  | some room => aput db room_id { room with language := language }
  | none => db

/-- `RoomService.update_active_users` (`max(0, active_users + delta)`). -/
def update_active_users (db : DB) (room_id : RoomId) (delta : Int) : DB :=
  match get_room db room_id with
  | some room => aput db room_id { room with active_users := max 0 (room.active_users + delta) }
  | none => db

end RoomService

/-! ### Websocket router, from `websocket_router.py`. -/

/-- `USER_COLORS`. -/
def USER_COLORS : List String :=
  ["#ff6b6b", "#4ecdc4", "#45b7d1", "#96c93d", "#f9ca24",
   "#f0932b", "#eb4d4b", "#6c5ce7", "#a29bfe", "#fd79a8",
   "#00b894", "#0984e3", "#e17055", "#fdcb6e"]

/-- `get_color_for_user`: sum of code points, modulo the palette size. -/
def get_color_for_user (user_id : String) : String :=
  USER_COLORS.getD ((user_id.data.map Char.toNat).sum % USER_COLORS.length) ""

/-- A decoded inbound envelope, one constructor per recognized `type`, plus
`unknown` (well-formed JSON, unrecognized `type`) and `malformed`
(`json.JSONDecodeError`).  Fields carry the values the router extracts from
`payload` (after its `.get(...)` defaulting). -/
inductive Inbound where
  | code_update (code : String) (cursorPosition : Int)
  | cursor_update (cursorPosition : Int) (selection : Option String)
  | chat_message (content : String) (messageType : String)
  | typing_start
  | typing_stop
  | language_change (language : String)
  | ping
  | unknown (t : String)
  | malformed
deriving DecidableEq, Repr

/-- The body of the router's receive loop (`websocket_endpoint`, lines 70-133)
for one inbound frame of a joined session: dispatch on the decoded `type`,
mutate the manager, persist where applicable, and reply.  Returns the new
manager state, the new durable store, and the delivered frames. -/
def handleMessage (fails : WS → Bool) (msg_id now : String) (s : CMState)
    (db : DB) (websocket : WS) (room_id : RoomId) (user_id : UserId)
    (user_name : String) (m : Inbound) : CMState × DB × List (WS × Frame) :=
  match m with
  | .code_update code cursorPosition =>
      let (s, out) := handle_code_update fails now s room_id user_id user_name
        code cursorPosition websocket
      (s, RoomService.update_room_code db room_id code, out)
  | .cursor_update cursorPosition selection =>
      let (s, out) := handle_cursor_update fails s room_id user_id user_name
        cursorPosition selection websocket
      (s, db, out)
  | .chat_message content messageType =>
      if content.trim = "" then (s, db, [])
      else
        let (s, out) := handle_chat_message fails msg_id now s room_id user_id
          user_name content messageType
        (s, db, out)
  | .typing_start =>
      let (s, out) := handle_typing_start fails s room_id user_id user_name websocket
      (s, db, out)
  | .typing_stop =>
      let (s, out) := handle_typing_stop fails s room_id user_id user_name websocket
      (s, db, out)
  | .language_change language =>
      let (s, out) := handle_language_change fails s room_id user_id user_name language
      (s, RoomService.update_room_language db room_id language, out)
  | .ping => (s, db, [(websocket, .pong)])
  | .unknown _ => (s, db, [])
  | .malformed => (s, db, [(websocket, .error "Invalid JSON format")])

/-- The join prologue of `websocket_endpoint` (lines 49-67): verify the
durable room, prime the cache on first join, bump the durable counter, then
`manager.connect`.  Returns the final `Bool` of `connect` (whether the
welcome send raised). -/
def wsJoin (fails : WS → Bool) (now : String) (s : CMState) (db : DB)
    (websocket : WS) (room_id : RoomId) (user_id : UserId) (username : String) :
    CMState × DB × List (WS × Frame) × Bool :=
  let user_color := get_color_for_user user_id
  let (s, db) :=
    match RoomService.get_room db room_id with
    | some room =>
        let s :=
          if (alookup s.room_code_cache room_id).isNone then
            set_room_language (set_room_code s room_id room.code_content) room_id room.language
          else s
        (s, RoomService.update_active_users db room_id 1)
    | none => (s, db)
  let (s, out, raised) := connect fails now s websocket room_id user_id username user_color
  (s, db, out, raised)

/-- The `except WebSocketDisconnect` epilogue of `websocket_endpoint`
(lines 135-151): registry leave, durable counter decrement, `user_left`
broadcast. -/
def wsLeave (fails : WS → Bool) (s : CMState) (db : DB) (websocket : WS)
    (room_id : RoomId) (user_id : UserId) : CMState × DB × List (WS × Frame) :=
  let (s, username_left) := disconnect s websocket room_id user_id
  let db := RoomService.update_active_users db room_id (-1)
  let (s, out) := broadcast_to_room fails s room_id
    (.user_left user_id username_left (get_room_users_count s room_id)) none
  (s, db, out)

/-! ### Traces of the whole system (router + manager + durable store). -/

/-- The full server state: the `ConnectionManager` singleton plus the
durable store. -/
structure Sys where
  cm : CMState
  db : DB

/-- One externally triggered step: a websocket join, an inbound frame from a
joined session, or a transport disconnect. -/
inductive Ev where
  | join (fails : WS → Bool) (now : String) (websocket : WS) (room_id : RoomId)
      (user_id : UserId) (username : String)
  | inbound (fails : WS → Bool) (msg_id now : String) (websocket : WS)
      (room_id : RoomId) (user_id : UserId) (username : String) (m : Inbound)
  | leave (fails : WS → Bool) (websocket : WS) (room_id : RoomId) (user_id : UserId)

/-- Apply one event. -/
def stepEv (sys : Sys) (e : Ev) : Sys :=
  match e with
  | .join fails now ws r u un =>
      let (cm, db, _, _) := wsJoin fails now sys.cm sys.db ws r u un
      ⟨cm, db⟩
  | .inbound fails mid now ws r u un m =>
      let (cm, db, _) := handleMessage fails mid now sys.cm sys.db ws r u un m
      ⟨cm, db⟩
  | .leave fails ws r u =>
      let (cm, db, _) := wsLeave fails sys.cm sys.db ws r u
      ⟨cm, db⟩

/-- Run a trace of events from a given system state. -/
def run (t : List Ev) (sys : Sys) : Sys := t.foldl stepEv sys

/-- The server's boot state over a given durable store. -/
def initialSys (db : DB) : Sys := ⟨initialCM, db⟩

/-! ### The ConnectionManager operations as a single inductive (used to state
invariants preserved by "every operation"). -/

/-- One call of a state-mutating `ConnectionManager` method, with its
arguments. -/
inductive MOp where
  | connectOp (fails : WS → Bool) (now : String) (websocket : WS)
      (room_id : RoomId) (user_id : UserId) (username color : String)
  | disconnectOp (websocket : WS) (room_id : RoomId) (user_id : UserId)
  | broadcastOp (fails : WS → Bool) (room_id : RoomId) (message : Frame)
      (exclude : Option WS)
  | codeUpdateOp (fails : WS → Bool) (now : String) (room_id : RoomId)
      (user_id : UserId) (username code : String) (cursor_position : Int)
      (websocket : WS)
  | cursorUpdateOp (fails : WS → Bool) (room_id : RoomId) (user_id : UserId)
      (username : String) (cursor_position : Int) (selection : Option String)
      (websocket : WS)
  | chatMessageOp (fails : WS → Bool) (msg_id now : String) (room_id : RoomId)
      (user_id : UserId) (username content msg_type : String)
  | typingStartOp (fails : WS → Bool) (room_id : RoomId) (user_id : UserId)
      (username : String) (websocket : WS)
  | typingStopOp (fails : WS → Bool) (room_id : RoomId) (user_id : UserId)
      (username : String) (websocket : WS)
  | languageChangeOp (fails : WS → Bool) (room_id : RoomId) (user_id : UserId)
      (username language : String)

/-- The state effect of one `ConnectionManager` call. -/
def applyM (s : CMState) (op : MOp) : CMState :=
  match op with
  | .connectOp fails now ws r u un c => (connect fails now s ws r u un c).1
  | .disconnectOp ws r u => (disconnect s ws r u).1
  | .broadcastOp fails r m ex => (broadcast_to_room fails s r m ex).1
  | .codeUpdateOp fails now r u un code cp ws =>
      (handle_code_update fails now s r u un code cp ws).1
  | .cursorUpdateOp fails r u un cp sel ws =>
      (handle_cursor_update fails s r u un cp sel ws).1
  | .chatMessageOp fails mid now r u un content mt =>
      (handle_chat_message fails mid now s r u un content mt).1
  | .typingStartOp fails r u un ws => (handle_typing_start fails s r u un ws).1
  | .typingStopOp fails r u un ws => (handle_typing_stop fails s r u un ws).1
  | .languageChangeOp fails r u un lang => (handle_language_change fails s r u un lang).1

/-! ### Concrete states used to instantiate theorems with hypotheses. -/

/-- No send ever fails. -/
def noFail : WS → Bool := fun _ => false

/-- Room `"r"` after user `A` connected on socket `1`. -/
def cmA : CMState := (connect noFail "t1" initialCM 1 "r" "A" "Alice" "#111").1

/-- Room `"r"` after users `A` (socket `1`) and `B` (socket `2`) connected. -/
def cmAB : CMState := (connect noFail "t2" cmA 2 "r" "B" "Bob" "#222").1

/-- `cmAB` after a broadcast during which the send to socket `2` failed:
socket `2` was lazily evicted from the room. -/
def cmABevicted : CMState :=
  (broadcast_to_room (fun c => c == 2) cmAB "r" (.chat_message ⟨"m", "A", "Alice", "hi", "t3", "message"⟩) none).1

/-! ### C6 -/

/-- C6 counterexample: with a joined session in a live room, an inbound frame
whose decoded `type` is unrecognized produces NO reply at all (the dispatch
chain has no `else` branch), contradicting the claim that exactly one error
frame is sent back to the sender. -/
theorem unknown_type_sends_no_error_frame :
    (handleMessage noFail "m1" "t9" cmAB [] 2 "r" "B" "Bob" (.unknown "bogus")).2.2 = [] :=
  rfl

/-- C6 (amended): an inbound frame with an unrecognized decoded `type` yields
no reply and no mutation of the manager state or the durable store; a frame
that fails JSON decoding yields exactly one error frame to the sender and no
mutation. -/
theorem unrecognized_and_malformed_frames_inert (fails : WS → Bool)
    (msg_id now : String) (s : CMState) (db : DB) (websocket : WS)
    (room_id : RoomId) (user_id : UserId) (user_name t : String) :
    handleMessage fails msg_id now s db websocket room_id user_id user_name
        (.unknown t) = (s, db, []) ∧
    handleMessage fails msg_id now s db websocket room_id user_id user_name
        .malformed = (s, db, [(websocket, .error "Invalid JSON format")]) :=
  ⟨rfl, rfl⟩

/-! ### C9 -/

/-- C9: joining with a room id that has no durable `Room` row is NOT rejected:
`websocket_endpoint` only uses the `get_room` result to prime the cache and
bump the counter, and calls `manager.connect` unconditionally, so the session
is registered, receives a `room_state` welcome built from the defaults, and no
error is surfaced.  This contradicts the claim (and the code's own
"Verify room exists" comment). -/
theorem join_without_durable_room_proceeds :
    (wsJoin noFail "t1" initialCM [] 7 "nosuch" "A" "Alice").2.2.2 = false ∧
    alookup (wsJoin noFail "t1" initialCM [] 7 "nosuch" "A" "Alice").1.active_connections
      "nosuch" = some [7] ∧
    (dget2 (wsJoin noFail "t1" initialCM [] 7 "nosuch" "A" "Alice").1.room_users
      "nosuch" "A").isSome = true ∧
    (wsJoin noFail "t1" initialCM [] 7 "nosuch" "A" "Alice").2.1 = [] ∧
    ((wsJoin noFail "t1" initialCM [] 7 "nosuch" "A" "Alice").2.2.1).map Prod.fst = [7] := by
  decide

/-! ### C5 -/

/-- The property C5 asserts of one `broadcast_to_room(room_id, message,
exclude)` call whose room has connection list `conns`. -/
def BroadcastBehaves (fails : WS → Bool) (s : CMState) (room_id : RoomId)
    (message : Frame) (exclude : Option WS) (conns : List WS) : Prop :=
  (∀ c ∈ conns, some c ≠ exclude → fails c = false →
      (c, message) ∈ (broadcast_to_room fails s room_id message exclude).2) ∧
  alookup (broadcast_to_room fails s room_id message exclude).1.active_connections room_id =
      some (conns.filter (fun c => (some c == exclude) || !(fails c))) ∧
  (∀ p ∈ (broadcast_to_room fails s room_id message exclude).2, p.2 = message) ∧
  (broadcast_to_room fails s room_id message exclude).1.room_code_cache = s.room_code_cache ∧
  (broadcast_to_room fails s room_id message exclude).1.room_language_cache = s.room_language_cache ∧
  (broadcast_to_room fails s room_id message exclude).1.user_cursors = s.user_cursors ∧
  (broadcast_to_room fails s room_id message exclude).1.connection_info = s.connection_info ∧
  (broadcast_to_room fails s room_id message exclude).1.room_users = s.room_users ∧
  (broadcast_to_room fails s room_id message exclude).1.room_chat_history = s.room_chat_history ∧
  (broadcast_to_room fails s room_id message exclude).1.room_typing_users = s.room_typing_users ∧
  (∀ r', r' ≠ room_id →
      alookup (broadcast_to_room fails s room_id message exclude).1.active_connections r' =
        alookup s.active_connections r')

/-- C5: a failed send to one recipient does not prevent delivery to every
other non-excluded recipient; each failed recipient is dropped from
`active_connections[room_id]`; every emitted frame is the broadcast message
itself (so no `user_left` is synthesized here); and no other manager state —
nor any other room's connection set — changes. -/
theorem broadcast_failure_isolation (fails : WS → Bool) (s : CMState)
    (room_id : RoomId) (message : Frame) (exclude : Option WS) (conns : List WS)
    (h : alookup s.active_connections room_id = some conns) :
    BroadcastBehaves fails s room_id message exclude conns := by
  have hb : broadcast_to_room fails s room_id message exclude =
      ({ s with active_connections := aput s.active_connections room_id (conns.filter (fun c => (some c == exclude) || !(fails c))) },
       ((conns.filter (fun c => !(some c == exclude))).filter (fun c => !(fails c))).map (fun c => (c, message))) := by
    unfold broadcast_to_room
    rw [h]
  rw [BroadcastBehaves, hb]
  refine ⟨?_, ?_, ?_, rfl, rfl, rfl, rfl, rfl, rfl, rfl, ?_⟩
  · intro c hc hnex hnf
    refine List.mem_map.mpr ⟨c, ?_, rfl⟩
    refine List.mem_filter.mpr ⟨List.mem_filter.mpr ⟨hc, ?_⟩, by simp [hnf]⟩
    simpa using hnex
  · show alookup (aput s.active_connections room_id _) room_id = _
    rw [alookup_aput, if_pos rfl]
  · intro p hp
    rcases List.mem_map.mp hp with ⟨c, _, rfl⟩
    rfl
  · intro r' hr'
    show alookup (aput s.active_connections room_id _) r' = _
    rw [alookup_aput, if_neg hr']

/-- C5 witness: a concrete broadcast in a two-member room where the send to
socket `2` fails: socket `1` still receives the message and socket `2` is
evicted. -/
theorem broadcast_failure_isolation_witness :
    alookup cmAB.active_connections "r" = some [1, 2] ∧
    BroadcastBehaves (fun c => c == 2) cmAB "r" .pong none [1, 2] :=
  ⟨by decide, broadcast_failure_isolation (fun c => c == 2) cmAB "r" .pong none [1, 2] (by decide)⟩

/-! ### C3 -/

/-- The property C3 asserts of the three handlers for a room whose connection
list is `conns`: the chat frame reaches every connection including the
sender's, the code/cursor frames reach exactly the other connections. -/
def HandlerRecipients (s : CMState) (room_id : RoomId) (user_id : UserId)
    (username msg_id now code content : String) (cursor_position : Int)
    (selection : Option String) (websocket : WS) (conns : List WS) : Prop :=
  (∀ c ∈ conns,
    (c, Frame.chat_message ⟨msg_id, user_id, username, content, now, "message"⟩) ∈
      (handle_chat_message noFail msg_id now s room_id user_id username content "message").2) ∧
  (∀ c ∈ conns,
    ((c, Frame.code_update code cursor_position user_id username now) ∈
        (handle_code_update noFail now s room_id user_id username code cursor_position websocket).2
      ↔ c ≠ websocket)) ∧
  (∀ c ∈ conns,
    ((c, Frame.cursor_update user_id username cursor_position selection) ∈
        (handle_cursor_update noFail s room_id user_id username cursor_position selection websocket).2
      ↔ c ≠ websocket))

/-- C3: with every send succeeding, `handle_chat_message` delivers its
`chat_message` frame to every connection of the room including the sender's,
while `handle_code_update` and `handle_cursor_update` deliver their frames to
every connection except the sender's websocket. -/
theorem handler_broadcast_recipients (s : CMState) (room_id : RoomId)
    (user_id : UserId) (username msg_id now code content : String)
    (cursor_position : Int) (selection : Option String) (websocket : WS)
    (conns : List WS)
    (h : alookup s.active_connections room_id = some conns) :
    HandlerRecipients s room_id user_id username msg_id now code content
      cursor_position selection websocket conns := by
  unfold HandlerRecipients
  refine ⟨?_, ?_, ?_⟩
  · intro c hc
    unfold handle_chat_message broadcast_to_room
    simp only [h]
    refine List.mem_map.mpr ⟨c, ?_, rfl⟩
    simp [List.mem_filter, hc, noFail]
  · intro c hc
    unfold handle_code_update broadcast_to_room
    cases hcur : alookup s.user_cursors room_id <;>
      cases hus : dget2 s.room_users room_id user_id <;>
        (simp only [h, hcur, hus]
         constructor
         · intro hmem
           rcases List.mem_map.mp hmem with ⟨c', hc', he⟩
           have hcc : c' = c := congrArg Prod.fst he
           subst hcc
           have := (List.mem_filter.mp (List.mem_filter.mp hc').1).2
           simpa using this
         · intro hne
           refine List.mem_map.mpr ⟨c, ?_, rfl⟩
           simp [List.mem_filter, hc, noFail, hne])
  · intro c hc
    unfold handle_cursor_update broadcast_to_room
    cases hcur : alookup s.user_cursors room_id <;>
      (simp only [h, hcur]
       constructor
       · intro hmem
         rcases List.mem_map.mp hmem with ⟨c', hc', he⟩
         have hcc : c' = c := congrArg Prod.fst he
         subst hcc
         have := (List.mem_filter.mp (List.mem_filter.mp hc').1).2
         simpa using this
       · intro hne
         refine List.mem_map.mpr ⟨c, ?_, rfl⟩
         simp [List.mem_filter, hc, noFail, hne])

/-- C3 witness: concrete two-member room, sender on socket `2`. -/
theorem handler_broadcast_recipients_witness :
    alookup cmAB.active_connections "r" = some [1, 2] ∧
    HandlerRecipients cmAB "r" "B" "Bob" "m1" "t9" "print(1)" "hi" 3 none 2 [1, 2] :=
  ⟨by decide,
   handler_broadcast_recipients cmAB "r" "B" "Bob" "m1" "t9" "print(1)" "hi" 3 none 2 [1, 2] (by decide)⟩

/-! ### C8 -/

/-- The property C8 asserts of a `disconnect` that removes a room's last
live connection: presence structures cleared, retained caches untouched. -/
def LastDisconnectClears (s : CMState) (websocket : WS) (room_id : RoomId)
    (user_id : UserId) : Prop :=
  alookup (disconnect s websocket room_id user_id).1.active_connections room_id = none ∧
  alookup (disconnect s websocket room_id user_id).1.user_cursors room_id = none ∧
  alookup (disconnect s websocket room_id user_id).1.room_users room_id = none ∧
  alookup (disconnect s websocket room_id user_id).1.room_typing_users room_id = none ∧
  (disconnect s websocket room_id user_id).1.room_code_cache = s.room_code_cache ∧
  (disconnect s websocket room_id user_id).1.room_language_cache = s.room_language_cache ∧
  (disconnect s websocket room_id user_id).1.room_chat_history = s.room_chat_history

/-- C8: when `disconnect` removes the last live connection of a room, the
per-room presence structures (`active_connections`, `user_cursors`,
`room_users`, `room_typing_users`) are deleted for that room, while
`room_code_cache`, `room_language_cache` and `room_chat_history` are left
exactly as they were (retained for reconnection). -/
theorem disconnect_last_clears_presence (s : CMState) (websocket : WS)
    (room_id : RoomId) (user_id : UserId) (conns : List WS)
    (h : alookup s.active_connections room_id = some conns)
    (hlast : conns.filter (fun c => !(c == websocket)) = []) :
    LastDisconnectClears s websocket room_id user_id := by
  unfold LastDisconnectClears disconnect
  simp only [h, hlast]
  cases hu : dget2 s.room_users room_id user_id <;>
    cases hc : (dget2 s.user_cursors room_id user_id).isSome <;>
      cases ht : alookup s.room_typing_users room_id <;>
        simp [hu, hc, ht, alookup_aput, alookup_aerase, List.isEmpty_nil]

/-- C8 witness: socket `1` of the one-member room `cmA` disconnects. -/
theorem disconnect_last_clears_presence_witness :
    alookup cmA.active_connections "r" = some [1] ∧
    List.filter (fun c => !(c == 1)) [1] = [] ∧
    LastDisconnectClears cmA 1 "r" "A" :=
  ⟨by decide, by decide,
   disconnect_last_clears_presence cmA 1 "r" "A" [1] (by decide) (by decide)⟩

/-! ### C10 -/

/-- The property C10 asserts of a `connect` whose welcome send raised. -/
def FailedJoinRolledBack (fails : WS → Bool) (now : String) (s : CMState)
    (websocket : WS) (room_id : RoomId) (user_id : UserId)
    (username color : String) : Prop :=
  (connect fails now s websocket room_id user_id username color).2.2 = true ∧
  (connect fails now s websocket room_id user_id username color).2.1 = [] ∧
  websocket ∉
    ((alookup (connect fails now s websocket room_id user_id username color).1.active_connections room_id).getD []) ∧
  dget2 (connect fails now s websocket room_id user_id username color).1.room_users
    room_id user_id = none ∧
  dget2 (connect fails now s websocket room_id user_id username color).1.user_cursors
    room_id user_id = none

/-- A socket is never a member of the list it was just filtered out of. -/
theorem not_mem_filter_self (l : List WS) (websocket : WS) :
    websocket ∉ l.filter (fun c => !(c == websocket)) := by
  intro hmem
  have := (List.mem_filter.mp hmem).2
  simp at this

/-- C10: if the `room_state` welcome send raises during `connect`, the
`except` branch removes the joining websocket from
`active_connections[room_id]`, deletes the joining user's `room_users` and
`user_cursors` entries, delivers nothing, and re-raises. -/
theorem failed_welcome_rolls_back (fails : WS → Bool) (now : String)
    (s : CMState) (websocket : WS) (room_id : RoomId) (user_id : UserId)
    (username color : String) (hf : fails websocket = true) :
    FailedJoinRolledBack fails now s websocket room_id user_id username color := by
  unfold FailedJoinRolledBack connect
  simp only [hf, if_true, dget2, dinner, alookup_aput, alookup_aerase, if_pos rfl,
    Option.getD_some, Option.isSome_some]
  refine ⟨?_, ?_, ?_, ?_, ?_⟩ <;>
    simp [alookup_aput, alookup_aerase, not_mem_filter_self]

/-- C10 witness: user `C` joins the two-member room `cmAB` on socket `3`,
whose send immediately fails. -/
theorem failed_welcome_rolls_back_witness :
    ((fun c : WS => c == 3) 3 = true) ∧
    FailedJoinRolledBack (fun c => c == 3) "t4" cmAB 3 "r" "C" "Carol" "#333" :=
  ⟨by decide,
   failed_welcome_rolls_back (fun c => c == 3) "t4" cmAB 3 "r" "C" "Carol" "#333" (by decide)⟩

/-! ### C4 -/

/-- The chat history of a room (empty when the room has none). -/
def chatHist (s : CMState) (room_id : RoomId) : List ChatMessage :=
  (alookup s.room_chat_history room_id).getD []

/-- The arguments of one `handle_chat_message` call on a fixed room. -/
structure ChatCall where
  msg_id : String
  now : String
  user_id : UserId
  username : String
  content : String
  msg_type : String
deriving DecidableEq, Repr

/-- The `ChatMessage` a call appends. -/
def mkChatMessage (c : ChatCall) : ChatMessage :=
  ⟨c.msg_id, c.user_id, c.username, c.content, c.now, c.msg_type⟩

/-- A sequence of `handle_chat_message` calls on one room. -/
def applyChats (fails : WS → Bool) (room_id : RoomId) (s : CMState)
    (calls : List ChatCall) : CMState :=
  calls.foldl
    (fun s c =>
      (handle_chat_message fails c.msg_id c.now s room_id c.user_id c.username c.content c.msg_type).1)
    s

theorem length_lastN {α : Type} (n : Nat) (l : List α) : (lastN n l).length ≤ n := by
  simp only [lastN, List.length_drop]
  omega

theorem lastN_of_le {α : Type} (n : Nat) (l : List α) (h : l.length ≤ n) :
    lastN n l = l := by
  simp only [lastN, Nat.sub_eq_zero_of_le h, List.drop_zero]

theorem lastN_append_absorb {α : Type} (n : Nat) (xs ys : List α) :
    lastN n (lastN n xs ++ ys) = lastN n (xs ++ ys) := by
  simp only [lastN, List.length_append, List.length_drop,
    List.drop_append_eq_append_drop, List.drop_drop]
  congr 1
  · congr 1
    omega
  · congr 1
    omega

/-- One `handle_chat_message` call leaves the room's history equal to the
most recent 50 of (old history ++ new message). -/
theorem chatHist_handle_chat_message (fails : WS → Bool) (msg_id now : String)
    (s : CMState) (room_id : RoomId) (user_id : UserId)
    (username content msg_type : String) :
    chatHist (handle_chat_message fails msg_id now s room_id user_id username content msg_type).1 room_id =
      lastN 50 (chatHist s room_id ++ [⟨msg_id, user_id, username, content, now, msg_type⟩]) := by
  unfold handle_chat_message chatHist broadcast_to_room
  set h0 := (alookup s.room_chat_history room_id).getD [] with hh0
  by_cases hlen : 50 < (h0 ++ [(⟨msg_id, user_id, username, content, now, msg_type⟩ : ChatMessage)]).length
  · simp only [hlen, if_true]
    split <;> simp [alookup_aput]
  · simp only [hlen, if_false]
    have : (h0 ++ [(⟨msg_id, user_id, username, content, now, msg_type⟩ : ChatMessage)]).length ≤ 50 := by omega
    rw [← lastN_of_le 50 _ this]
    split <;> simp [alookup_aput, lastN_of_le 50 _ this]

/-- C4: starting from any state whose history for `room_id` holds at most 50
messages, any sequence of `handle_chat_message` calls leaves the history
equal to the most recent 50 appended messages in arrival order (a bounded
FIFO: appending a 51st evicts the oldest), and its length never exceeds 50. -/
theorem chat_history_bounded_fifo (fails : WS → Bool) (room_id : RoomId)
    (calls : List ChatCall) (s : CMState)
    (h : (chatHist s room_id).length ≤ 50) :
    chatHist (applyChats fails room_id s calls) room_id =
      lastN 50 (chatHist s room_id ++ calls.map mkChatMessage) ∧
    (chatHist (applyChats fails room_id s calls) room_id).length ≤ 50 := by
  induction calls generalizing s with
  | nil =>
      simp only [applyChats, List.foldl_nil, List.map_nil, List.append_nil]
      exact ⟨(lastN_of_le 50 _ h).symm, h⟩
  | cons c cs ih =>
      have hstep := chatHist_handle_chat_message fails c.msg_id c.now s room_id
        c.user_id c.username c.content c.msg_type
      have hlen : (chatHist (handle_chat_message fails c.msg_id c.now s room_id c.user_id c.username c.content c.msg_type).1 room_id).length ≤ 50 := by
        rw [hstep]; exact length_lastN 50 _
      have := ih _ hlen
      rw [applyChats, List.foldl_cons] at *
      refine ⟨?_, this.2⟩
      rw [show (List.foldl _ _ cs : CMState) = applyChats fails room_id
        (handle_chat_message fails c.msg_id c.now s room_id c.user_id c.username c.content c.msg_type).1 cs from rfl] at *
      rw [this.1, hstep, lastN_append_absorb, List.append_assoc]
      rfl

/-! ### C1 -/

theorem alookup_dinner {α : Type} (m : List (RoomId × List (UserId × α)))
    (r : RoomId) (u : UserId) : alookup (dinner m r) u = dget2 m r u := by
  unfold dinner dget2
  cases alookup m r
  · rfl
  · rfl

theorem dget2_aput {α : Type} (m : List (RoomId × List (UserId × α)))
    (r : RoomId) (d : List (UserId × α)) (r' : RoomId) (u : UserId) :
    dget2 (aput m r d) r' u = if r' = r then alookup d u else dget2 m r' u := by
  unfold dget2
  rw [alookup_aput]
  by_cases h : r' = r <;> simp [h]

theorem dget2_aerase {α : Type} (m : List (RoomId × List (UserId × α)))
    (r : RoomId) (r' : RoomId) (u : UserId) :
    dget2 (aerase m r) r' u = if r' = r then none else dget2 m r' u := by
  unfold dget2
  rw [alookup_aerase]
  by_cases h : r' = r <;> simp [h]

/-- In every room, a user with a `room_users` entry has a `user_cursors`
entry (stated on the raw maps). -/
def UCmaps (ru : List (RoomId × List (UserId × User)))
    (uc : List (RoomId × List (UserId × Cursor))) : Prop :=
  ∀ r u, (dget2 ru r u).isSome = true → (dget2 uc r u).isSome = true

/-- C1's (amended) invariant on a manager state. -/
def UsersHaveCursors (s : CMState) : Prop :=
  UCmaps s.room_users s.user_cursors

theorem UCmaps_put2 {ru uc} (h : UCmaps ru uc) (r0 : RoomId) (u0 : UserId)
    (v : User) (w : Cursor) :
    UCmaps (aput ru r0 (aput (dinner ru r0) u0 v))
      (aput uc r0 (aput (dinner uc r0) u0 w)) := by
  intro r u
  rw [dget2_aput, dget2_aput]
  by_cases hr : r = r0
  · rw [if_pos hr, if_pos hr, alookup_aput, alookup_aput]
    by_cases hu : u = u0
    · simp [hu]
    · rw [if_neg hu, if_neg hu, alookup_dinner, alookup_dinner]
      subst hr
      exact h r u
  · rw [if_neg hr, if_neg hr]
    exact h r u

theorem UCmaps_init {ru uc} (h : UCmaps ru uc) (r0 : RoomId) :
    UCmaps (aput ru r0 []) (aput uc r0 []) := by
  intro r u
  rw [dget2_aput, dget2_aput]
  by_cases hr : r = r0
  · simp [hr, alookup]
  · rw [if_neg hr, if_neg hr]
    exact h r u

theorem dget2_put2_self {α : Type} (m : List (RoomId × List (UserId × α)))
    (r0 : RoomId) (u0 : UserId) (v : α) :
    dget2 (aput m r0 (aput (dinner m r0) u0 v)) r0 u0 = some v := by
  rw [dget2_aput, if_pos rfl, alookup_aput, if_pos rfl]

theorem dget2_erase2_self {α : Type} (m : List (RoomId × List (UserId × α)))
    (r0 : RoomId) (u0 : UserId) :
    dget2 (aput m r0 (aerase (dinner m r0) u0)) r0 u0 = none := by
  rw [dget2_aput, if_pos rfl, alookup_aerase, if_pos rfl]

theorem UCmaps_users_erase {ru uc} (h : UCmaps ru uc) (r0 : RoomId)
    (u0 : UserId) :
    UCmaps (aput ru r0 (aerase (dinner ru r0) u0)) uc := by
  intro r u hu
  rw [dget2_aput] at hu
  by_cases hr : r = r0
  · rw [if_pos hr, alookup_aerase] at hu
    by_cases huu : u = u0
    · rw [if_pos huu] at hu
      simp at hu
    · rw [if_neg huu, alookup_dinner] at hu
      subst hr
      exact h r u hu
  · rw [if_neg hr] at hu
    exact h r u hu

theorem UCmaps_eraseRoom {ru uc} (h : UCmaps ru uc) (r0 : RoomId) :
    UCmaps (aerase ru r0) (aerase uc r0) := by
  intro r u
  rw [dget2_aerase, dget2_aerase]
  by_cases hr : r = r0
  · simp [hr]
  · rw [if_neg hr, if_neg hr]
    exact h r u

theorem UCmaps_cursor_add {ru uc} (h : UCmaps ru uc) {r0 : RoomId}
    {d : List (UserId × Cursor)} (hd : alookup uc r0 = some d) (u0 : UserId)
    (w : Cursor) : UCmaps ru (aput uc r0 (aput d u0 w)) := by
  intro r u hu
  rw [dget2_aput]
  by_cases hr : r = r0
  · rw [if_pos hr, alookup_aput]
    by_cases huu : u = u0
    · simp [huu]
    · rw [if_neg huu]
      have := h r u hu
      rw [hr] at this
      unfold dget2 at this
      rw [hd] at this
      exact this
  · rw [if_neg hr]
    exact h r u hu

theorem UCmaps_cursor_erase_absent {ru uc} (h : UCmaps ru uc) (r0 : RoomId)
    (u0 : UserId) (habs : dget2 ru r0 u0 = none) :
    UCmaps ru (aput uc r0 (aerase (dinner uc r0) u0)) := by
  intro r u hu
  rw [dget2_aput]
  by_cases hr : r = r0
  · rw [if_pos hr, alookup_aerase]
    by_cases huu : u = u0
    · exfalso
      rw [hr, huu, habs] at hu
      simp at hu
    · rw [if_neg huu, alookup_dinner]
      rw [hr] at hu
      exact h r0 u hu
  · rw [if_neg hr]
    exact h r u hu

theorem UCmaps_users_touch {ru uc} (h : UCmaps ru uc) (r0 : RoomId)
    (u0 : UserId) (v : User) (hp : (dget2 ru r0 u0).isSome = true) :
    UCmaps (aput ru r0 (aput (dinner ru r0) u0 v)) uc := by
  intro r u hu
  rw [dget2_aput] at hu
  by_cases hr : r = r0
  · rw [if_pos hr] at hu
    rw [alookup_aput] at hu
    by_cases huu : u = u0
    · subst huu; subst hr
      exact h r u hp
    · rw [if_neg huu, alookup_dinner] at hu
      subst hr
      exact h r u hu
  · rw [if_neg hr] at hu
    exact h r u hu

/-- `broadcast_to_room` changes only `active_connections`, so it preserves
the users-have-cursors invariant. -/
theorem UsersHaveCursors_broadcast (fails : WS → Bool) (s : CMState)
    (room_id : RoomId) (message : Frame) (exclude : Option WS)
    (h : UsersHaveCursors s) :
    UsersHaveCursors (broadcast_to_room fails s room_id message exclude).1 := by
  unfold broadcast_to_room
  cases halook : alookup s.active_connections room_id
  · exact h
  · exact h

/-- The spec-side notion of "a live connection bound to user `u` is present
in `active_connections[r]`": some socket of the room is mapped by
`connection_info` to `u`. -/
def hasLiveConnFor (s : CMState) (r : RoomId) (u : UserId) : Bool :=
  ((alookup s.active_connections r).getD []).any (fun c =>
    match alookup s.connection_info c with
    | some info => info.user_id == u
    | none => false)

/-- C1 counterexample: in the reachable state `cmABevicted` (two users
joined, then a broadcast during which the send to `B`'s socket failed), user
`B` still has a `room_users` entry but no live connection in the room is
bound to `B`: lazy eviction breaks the users-connections `iff`, so it is not
an invariant preserved by `broadcast_to_room`. -/
theorem lazy_eviction_breaks_connection_correspondence :
    (dget2 cmABevicted.room_users "r" "B").isSome = true ∧
    hasLiveConnFor cmABevicted "r" "B" = false := by
  decide

set_option maxHeartbeats 1000000 in
/-- C1 (amended): for every room `r` and user `u`, an entry in
`room_users[r]` implies an entry in `user_cursors[r]`, and every
`ConnectionManager` operation (connect, disconnect, broadcast_to_room and
every message handler) preserves this; the stronger claimed `iff` with a
live connection in `active_connections[r]` is not preserved (see the
counterexample). -/
theorem users_have_cursors_preserved (op : MOp) (s : CMState)
    (h : UsersHaveCursors s) : UsersHaveCursors (applyM s op) := by
  cases op with
  | connectOp fails now ws r0 u0 un c0 =>
      show UsersHaveCursors (connect fails now s ws r0 u0 un c0).1
      unfold connect
      by_cases hinit : (alookup s.active_connections r0).isNone = true
      · by_cases hf : fails ws = true
        · simp only [hinit, hf, if_true, dget2_put2_self, Option.isSome_some]
          exact UCmaps_cursor_erase_absent
            (UCmaps_users_erase (UCmaps_put2 (UCmaps_init h r0) r0 u0 _ _) r0 u0)
            r0 u0 (dget2_erase2_self _ r0 u0)
        · simp only [hinit, hf, if_true, Bool.false_eq_true, if_false]
          exact UsersHaveCursors_broadcast _ _ _ _ _
            (UCmaps_put2 (UCmaps_init h r0) r0 u0 _ _)
      · by_cases hf : fails ws = true
        · simp only [hinit, hf, if_true, if_false, Bool.false_eq_true,
            dget2_put2_self, Option.isSome_some]
          exact UCmaps_cursor_erase_absent
            (UCmaps_users_erase (UCmaps_put2 h r0 u0 _ _) r0 u0)
            r0 u0 (dget2_erase2_self _ r0 u0)
        · simp only [hinit, hf, if_false, Bool.false_eq_true]
          exact UsersHaveCursors_broadcast _ _ _ _ _ (UCmaps_put2 h r0 u0 _ _)
  | disconnectOp ws r0 u0 =>
      show UsersHaveCursors (disconnect s ws r0 u0).1
      unfold disconnect
      cases hac : alookup s.active_connections r0
      · exact h
      · cases hru : dget2 s.room_users r0 u0 <;>
          cases hcu : (dget2 s.user_cursors r0 u0).isSome <;>
            cases hty : alookup s.room_typing_users r0 <;>
              simp only [hru, hcu, hty, if_true, if_false, Bool.false_eq_true] <;>
                split <;>
                  first
                    | exact UCmaps_eraseRoom (UCmaps_cursor_erase_absent h r0 u0 hru) r0
                    | exact UCmaps_cursor_erase_absent h r0 u0 hru
                    | exact UCmaps_eraseRoom (UCmaps_cursor_erase_absent
                        (UCmaps_users_erase h r0 u0) r0 u0 (dget2_erase2_self _ r0 u0)) r0
                    | exact UCmaps_cursor_erase_absent
                        (UCmaps_users_erase h r0 u0) r0 u0 (dget2_erase2_self _ r0 u0)
                    | exact UCmaps_eraseRoom (UCmaps_users_erase h r0 u0) r0
                    | exact UCmaps_users_erase h r0 u0
                    | exact UCmaps_eraseRoom h r0
                    | exact h
  | broadcastOp fails r0 m ex =>
      exact UsersHaveCursors_broadcast fails s r0 m ex h
  | codeUpdateOp fails now r0 u0 un code cp ws =>
      show UsersHaveCursors (handle_code_update fails now s r0 u0 un code cp ws).1
      unfold handle_code_update
      cases hcur : alookup s.user_cursors r0 <;>
        cases hus : dget2 s.room_users r0 u0 <;>
          simp only [hcur, hus] <;>
            apply UsersHaveCursors_broadcast
      · exact h
      · exact UCmaps_users_touch h r0 u0 _ (by rw [hus]; rfl)
      · exact UCmaps_cursor_add h hcur u0 _
      · refine UCmaps_users_touch (UCmaps_cursor_add h hcur u0 _) r0 u0 _ ?_
        rw [hus]; rfl
  | cursorUpdateOp fails r0 u0 un cp sel ws =>
      show UsersHaveCursors (handle_cursor_update fails s r0 u0 un cp sel ws).1
      unfold handle_cursor_update
      cases hcur : alookup s.user_cursors r0 <;>
        simp only [hcur] <;>
          apply UsersHaveCursors_broadcast
      · exact h
      · exact UCmaps_cursor_add h hcur u0 _
  | chatMessageOp fails mid now r0 u0 un content mt =>
      show UsersHaveCursors (handle_chat_message fails mid now s r0 u0 un content mt).1
      unfold handle_chat_message
      exact UsersHaveCursors_broadcast _ _ _ _ _ h
  | typingStartOp fails r0 u0 un ws =>
      show UsersHaveCursors (handle_typing_start fails s r0 u0 un ws).1
      unfold handle_typing_start
      cases hus : dget2 s.room_users r0 u0 <;>
        simp only [hus] <;>
          apply UsersHaveCursors_broadcast
      · exact h
      · exact UCmaps_users_touch h r0 u0 _ (by rw [hus]; rfl)
  | typingStopOp fails r0 u0 un ws =>
      show UsersHaveCursors (handle_typing_stop fails s r0 u0 un ws).1
      unfold handle_typing_stop
      cases hty : alookup s.room_typing_users r0 <;>
        cases hus : dget2 s.room_users r0 u0 <;>
          simp only [hty, hus] <;>
            apply UsersHaveCursors_broadcast
      · exact h
      · exact UCmaps_users_touch h r0 u0 _ (by rw [hus]; rfl)
      · exact h
      · exact UCmaps_users_touch h r0 u0 _ (by rw [hus]; rfl)
  | languageChangeOp fails r0 u0 un lang =>
      show UsersHaveCursors (handle_language_change fails s r0 u0 un lang).1
      unfold handle_language_change
      exact UsersHaveCursors_broadcast _ _ _ _ _ h

/-- C1 witness: the invariant holds of the fresh manager and is preserved by
a concrete `connect`. -/
theorem users_have_cursors_preserved_witness :
    UsersHaveCursors initialCM ∧
    UsersHaveCursors (applyM initialCM (.connectOp noFail "t1" 1 "r" "A" "Alice" "#111")) :=
  have h0 : UsersHaveCursors initialCM := by
    intro r u hu
    simp [initialCM, dget2, alookup] at hu
  ⟨h0, users_have_cursors_preserved (.connectOp noFail "t1" 1 "r" "A" "Alice" "#111") initialCM h0⟩

/-- C4 witness: one chat call starting from the empty history. -/
theorem chat_history_bounded_fifo_witness :
    (chatHist cmAB "r").length ≤ 50 ∧
    (chatHist (applyChats noFail "r" cmAB [⟨"m1", "t9", "B", "Bob", "hi", "message"⟩]) "r" =
      lastN 50 (chatHist cmAB "r" ++ [mkChatMessage ⟨"m1", "t9", "B", "Bob", "hi", "message"⟩]) ∧
    (chatHist (applyChats noFail "r" cmAB [⟨"m1", "t9", "B", "Bob", "hi", "message"⟩]) "r").length ≤ 50) :=
  ⟨by decide,
   by
    have := chat_history_bounded_fifo noFail "r" [⟨"m1", "t9", "B", "Bob", "hi", "message"⟩] cmAB (by decide)
    simpa using this⟩


/-! ### C7 -/

theorem some_beq_none (c : WS) : (some c == (none : Option WS)) = false := rfl

/-- Lazily evicting a socket (a broadcast in which exactly that socket's send
fails) and then disconnecting it gives the same manager state — and returned
username — as disconnecting it directly: the leave sequence is idempotent
with respect to prior lazy eviction. -/
theorem disconnect_after_lazy_evict (s : CMState) (ws : WS) (r : RoomId)
    (u : UserId) (m : Frame) :
    disconnect (broadcast_to_room (fun c => c == ws) s r m none).1 ws r u =
      disconnect s ws r u := by
  unfold broadcast_to_room
  cases hac : alookup s.active_connections r with
  | none => rfl
  | some conns =>
      simp only [some_beq_none, Bool.false_or]
      unfold disconnect
      simp [alookup_aput, aput_aput, List.filter_filter, hac]

/-- The property C7 asserts of one disconnect-path run on room `r`, socket
`ws`, user `u`, with eviction message `m` and the durable row `dr`. -/
def LeaveOnceBehaves (s : CMState) (db : DB) (ws : WS) (r : RoomId)
    (u : UserId) (m : Frame) (fails2 : WS → Bool) (dr : DRoom) : Prop :=
  wsLeave fails2 (broadcast_to_room (fun c => c == ws) s r m none).1 db ws r u =
      wsLeave fails2 s db ws r u ∧
    (alookup (wsLeave fails2 s db ws r u).2.1 r).map DRoom.active_users =
      some (dr.active_users - 1) ∧
    (wsLeave fails2 s db ws r u).2.2 =
      (((alookup (disconnect s ws r u).1.active_connections r).getD []).filter
          (fun c => !(fails2 c))).map
        (fun c => (c, Frame.user_left u (disconnect s ws r u).2
            (get_room_users_count (disconnect s ws r u).1 r)))

/-- C7: with the durable room present and its counter at `n >= 1`, the
disconnect path (`disconnect`, counter decrement, `user_left` broadcast) run
after the socket was already lazily evicted produces exactly the same
manager state, durable store and frames as a single direct run; the durable
counter lands at `n - 1`; and the frames it emits are a single `user_left`
broadcast fanned out to the connections that remain after the disconnect. -/
theorem leave_idempotent_single_decrement (s : CMState) (db : DB) (ws : WS)
    (r : RoomId) (u : UserId) (m : Frame) (fails2 : WS → Bool) (dr : DRoom)
    (hdb : alookup db r = some dr) (hn : 1 ≤ dr.active_users) :
    LeaveOnceBehaves s db ws r u m fails2 dr := by
  unfold LeaveOnceBehaves
  refine ⟨?_, ?_, ?_⟩
  · unfold wsLeave
    rw [disconnect_after_lazy_evict]
  · unfold wsLeave RoomService.update_active_users RoomService.get_room
    rw [hdb]
    simp only [alookup_aput]
    rw [if_pos trivial]
    have hmax : (0 : Int) ⊔ (dr.active_users + -1) = dr.active_users + -1 :=
      sup_eq_right.mpr (by omega)
    show some ((0 : Int) ⊔ (dr.active_users + -1)) = some (dr.active_users - 1)
    rw [hmax, Int.sub_eq_add_neg]
  · unfold wsLeave broadcast_to_room
    cases hac2 : alookup (disconnect s ws r u).1.active_connections r with
    | none => simp [hac2]
    | some conns2 => simp [hac2, some_beq_none]


/-- C7 witness: the two-member room `cmAB` with durable counter 2; socket
`2` (user `B`) leaves. -/
theorem leave_idempotent_single_decrement_witness :
    alookup [("r", (⟨"c", "python", 2⟩ : DRoom))] "r" = some (⟨"c", "python", 2⟩ : DRoom) ∧
    (1 : Int) ≤ (⟨"c", "python", 2⟩ : DRoom).active_users ∧
    LeaveOnceBehaves cmAB [("r", ⟨"c", "python", 2⟩)] 2 "r" "B" .pong noFail ⟨"c", "python", 2⟩ :=
  ⟨by decide, by decide,
   leave_idempotent_single_decrement cmAB [("r", ⟨"c", "python", 2⟩)] 2 "r" "B" .pong noFail
     ⟨"c", "python", 2⟩ (by decide) (by decide)⟩


/-! ### C2: field-effect lemmas for the cache invariant. -/

theorem broadcast_fields (fails : WS → Bool) (s : CMState) (r : RoomId)
    (m : Frame) (ex : Option WS) :
    (broadcast_to_room fails s r m ex).1.room_code_cache = s.room_code_cache ∧
    (broadcast_to_room fails s r m ex).1.room_language_cache = s.room_language_cache ∧
    (broadcast_to_room fails s r m ex).1.room_chat_history = s.room_chat_history := by
  unfold broadcast_to_room
  cases alookup s.active_connections r
  · exact ⟨rfl, rfl, rfl⟩
  · exact ⟨rfl, rfl, rfl⟩

theorem connect_fields (fails : WS → Bool) (now : String) (s : CMState)
    (ws : WS) (r : RoomId) (u : UserId) (un c0 : String) :
    (connect fails now s ws r u un c0).1.room_code_cache = s.room_code_cache ∧
    (connect fails now s ws r u un c0).1.room_language_cache = s.room_language_cache := by
  unfold connect
  by_cases hinit : (alookup s.active_connections r).isNone = true
  · by_cases hf : fails ws = true
    · simp only [hinit, hf, if_true]
      simp only [dget2_put2_self, Option.isSome_some, if_true]
      refine ⟨?_, ?_⟩ <;> trivial
    · simp only [hinit, hf, if_true, Bool.false_eq_true, if_false]
      exact ⟨(broadcast_fields _ _ _ _ _).1, (broadcast_fields _ _ _ _ _).2.1⟩
  · by_cases hf : fails ws = true
    · simp only [hinit, hf, if_true, Bool.false_eq_true, if_false]
      simp only [dget2_put2_self, Option.isSome_some, if_true]
      refine ⟨?_, ?_⟩ <;> trivial
    · simp only [hinit, hf, Bool.false_eq_true, if_false]
      exact ⟨(broadcast_fields _ _ _ _ _).1, (broadcast_fields _ _ _ _ _).2.1⟩

theorem disconnect_fields (s : CMState) (ws : WS) (r : RoomId) (u : UserId) :
    (disconnect s ws r u).1.room_code_cache = s.room_code_cache ∧
    (disconnect s ws r u).1.room_language_cache = s.room_language_cache := by
  unfold disconnect
  cases hac : alookup s.active_connections r
  · exact ⟨rfl, rfl⟩
  · cases hru : dget2 s.room_users r u <;>
      cases hcu : (dget2 s.user_cursors r u).isSome <;>
        cases hty : alookup s.room_typing_users r <;>
          simp only [hru, hcu, hty, if_true, if_false, Bool.false_eq_true] <;>
            split <;> exact ⟨rfl, rfl⟩

theorem handle_code_update_fields (fails : WS → Bool) (now : String)
    (s : CMState) (r : RoomId) (u : UserId) (un code : String) (cp : Int)
    (ws : WS) :
    (handle_code_update fails now s r u un code cp ws).1.room_code_cache =
      aput s.room_code_cache r code ∧
    (handle_code_update fails now s r u un code cp ws).1.room_language_cache =
      s.room_language_cache := by
  unfold handle_code_update
  cases hcur : alookup s.user_cursors r <;>
    cases hus : dget2 s.room_users r u <;>
      simp only [hcur, hus] <;>
        exact ⟨(broadcast_fields _ _ _ _ _).1, (broadcast_fields _ _ _ _ _).2.1⟩

theorem handle_cursor_update_fields (fails : WS → Bool) (s : CMState)
    (r : RoomId) (u : UserId) (un : String) (cp : Int) (sel : Option String)
    (ws : WS) :
    (handle_cursor_update fails s r u un cp sel ws).1.room_code_cache =
      s.room_code_cache ∧
    (handle_cursor_update fails s r u un cp sel ws).1.room_language_cache =
      s.room_language_cache := by
  unfold handle_cursor_update
  cases hcur : alookup s.user_cursors r <;>
    simp only [hcur] <;>
      exact ⟨(broadcast_fields _ _ _ _ _).1, (broadcast_fields _ _ _ _ _).2.1⟩

theorem handle_chat_message_fields (fails : WS → Bool) (mid now : String)
    (s : CMState) (r : RoomId) (u : UserId) (un content mt : String) :
    (handle_chat_message fails mid now s r u un content mt).1.room_code_cache =
      s.room_code_cache ∧
    (handle_chat_message fails mid now s r u un content mt).1.room_language_cache =
      s.room_language_cache := by
  unfold handle_chat_message
  exact ⟨(broadcast_fields _ _ _ _ _).1, (broadcast_fields _ _ _ _ _).2.1⟩

theorem handle_typing_start_fields (fails : WS → Bool) (s : CMState)
    (r : RoomId) (u : UserId) (un : String) (ws : WS) :
    (handle_typing_start fails s r u un ws).1.room_code_cache = s.room_code_cache ∧
    (handle_typing_start fails s r u un ws).1.room_language_cache = s.room_language_cache := by
  unfold handle_typing_start
  cases hus : dget2 s.room_users r u <;>
    simp only [hus] <;>
      exact ⟨(broadcast_fields _ _ _ _ _).1, (broadcast_fields _ _ _ _ _).2.1⟩

theorem handle_typing_stop_fields (fails : WS → Bool) (s : CMState)
    (r : RoomId) (u : UserId) (un : String) (ws : WS) :
    (handle_typing_stop fails s r u un ws).1.room_code_cache = s.room_code_cache ∧
    (handle_typing_stop fails s r u un ws).1.room_language_cache = s.room_language_cache := by
  unfold handle_typing_stop
  cases hty : alookup s.room_typing_users r <;>
    cases hus : dget2 s.room_users r u <;>
      simp only [hty, hus] <;>
        exact ⟨(broadcast_fields _ _ _ _ _).1, (broadcast_fields _ _ _ _ _).2.1⟩

theorem handle_language_change_fields (fails : WS → Bool) (s : CMState)
    (r : RoomId) (u : UserId) (un lang : String) :
    (handle_language_change fails s r u un lang).1.room_code_cache =
      s.room_code_cache ∧
    (handle_language_change fails s r u un lang).1.room_language_cache =
      aput s.room_language_cache r lang := by
  unfold handle_language_change
  exact ⟨(broadcast_fields _ _ _ _ _).1, (broadcast_fields _ _ _ _ _).2.1⟩

theorem get_room_update_active_users (db : DB) (r0 : RoomId) (d : Int)
    (r : RoomId) :
    (alookup (RoomService.update_active_users db r0 d) r).map DRoom.code_content =
      (alookup db r).map DRoom.code_content ∧
    (alookup (RoomService.update_active_users db r0 d) r).map DRoom.language =
      (alookup db r).map DRoom.language ∧
    (alookup (RoomService.update_active_users db r0 d) r).isSome =
      (alookup db r).isSome := by
  unfold RoomService.update_active_users RoomService.get_room
  cases hr0 : alookup db r0
  · exact ⟨rfl, rfl, rfl⟩
  · by_cases h : r = r0
    · subst h
      simp [alookup_aput, hr0]
    · simp [alookup_aput, h]

theorem get_room_update_room_code (db : DB) (r0 : RoomId) (c : String)
    (r : RoomId) :
    (alookup (RoomService.update_room_code db r0 c) r).map DRoom.language =
      (alookup db r).map DRoom.language ∧
    (alookup (RoomService.update_room_code db r0 c) r).isSome =
      (alookup db r).isSome ∧
    (r ≠ r0 → alookup (RoomService.update_room_code db r0 c) r = alookup db r) := by
  unfold RoomService.update_room_code RoomService.get_room
  cases hr0 : alookup db r0
  · exact ⟨rfl, rfl, fun _ => rfl⟩
  · by_cases h : r = r0
    · subst h
      simp [alookup_aput, hr0]
    · simp [alookup_aput, h]

theorem get_room_update_room_language (db : DB) (r0 : RoomId) (l : String)
    (r : RoomId) :
    (alookup (RoomService.update_room_language db r0 l) r).map DRoom.code_content =
      (alookup db r).map DRoom.code_content ∧
    (alookup (RoomService.update_room_language db r0 l) r).isSome =
      (alookup db r).isSome ∧
    (r ≠ r0 → alookup (RoomService.update_room_language db r0 l) r = alookup db r) := by
  unfold RoomService.update_room_language RoomService.get_room
  cases hr0 : alookup db r0
  · exact ⟨rfl, rfl, fun _ => rfl⟩
  · by_cases h : r = r0
    · subst h
      simp [alookup_aput, hr0]
    · simp [alookup_aput, h]

/-! ### C2: trace observables. -/

/-- The code set for room `r` by this event, if it is a `code_update` there. -/
def lastCodeEv (e : Ev) (r : RoomId) : Option String :=
  match e with
  | .inbound _ _ _ _ r' _ _ (.code_update code _) => if r' = r then some code else none
  | _ => none

/-- The code last set by any `code_update` for `r` in the trace. -/
def lastCode (t : List Ev) (r : RoomId) : Option String :=
  t.foldl (fun acc e =>
    match lastCodeEv e r with
    | some c => some c
    | none => acc) none

/-- The language set for room `r` by this event, if it is a
`language_change` there. -/
def lastLangEv (e : Ev) (r : RoomId) : Option String :=
  match e with
  | .inbound _ _ _ _ r' _ _ (.language_change l) => if r' = r then some l else none
  | _ => none

/-- The language last set by any `language_change` for `r` in the trace. -/
def lastLang (t : List Ev) (r : RoomId) : Option String :=
  t.foldl (fun acc e =>
    match lastLangEv e r with
    | some l => some l
    | none => acc) none

def isJoinTo (e : Ev) (r : RoomId) : Bool :=
  match e with
  | .join _ _ _ r' _ _ => r' == r
  | _ => false

/-- Whether some join to `r` occurs in the trace. -/
def joinedIn (t : List Ev) (r : RoomId) : Bool := t.any (fun e => isJoinTo e r)

def isInboundTo (e : Ev) (r : RoomId) : Bool :=
  match e with
  | .inbound _ _ _ _ r' _ _ _ => r' == r
  | _ => false

/-- Traces the router can actually produce for room `r`: an inbound frame for
`r` is only received from a joined session, so some join to `r` precedes it. -/
def joinFirst (t : List Ev) (r : RoomId) : Prop :=
  ∀ t1 e t2, t = t1 ++ e :: t2 → isInboundTo e r = true → joinedIn t1 r = true

theorem lastCode_append (t : List Ev) (e : Ev) (r : RoomId) :
    lastCode (t ++ [e]) r =
      match lastCodeEv e r with
      | some c => some c
      | none => lastCode t r := by
  unfold lastCode
  rw [List.foldl_append]
  rfl

theorem lastLang_append (t : List Ev) (e : Ev) (r : RoomId) :
    lastLang (t ++ [e]) r =
      match lastLangEv e r with
      | some l => some l
      | none => lastLang t r := by
  unfold lastLang
  rw [List.foldl_append]
  rfl

theorem joinedIn_append (t : List Ev) (e : Ev) (r : RoomId) :
    joinedIn (t ++ [e]) r = (joinedIn t r || isJoinTo e r) := by
  unfold joinedIn
  rw [List.any_append]
  simp

theorem run_append (t : List Ev) (e : Ev) (sys : Sys) :
    run (t ++ [e]) sys = stepEv (run t sys) e := by
  unfold run
  rw [List.foldl_append]
  rfl

theorem joinFirst_append (t : List Ev) (e : Ev) (r : RoomId)
    (h : joinFirst (t ++ [e]) r) :
    joinFirst t r ∧ (isInboundTo e r = true → joinedIn t r = true) := by
  constructor
  · intro t1 e' t2 heq hl
    refine h t1 e' (t2 ++ [e]) ?_ hl
    rw [heq]
    simp
  · intro hl
    exact h t e [] rfl hl

theorem isInboundTo_of_lastCodeEv (e : Ev) (r : RoomId)
    (h : lastCodeEv e r ≠ none) : isInboundTo e r = true := by
  cases e with
  | join fails now ws r' u un => exact absurd rfl h
  | leave fails ws r' u => exact absurd rfl h
  | inbound fails mid now ws r' u un m =>
      cases m <;> simp only [lastCodeEv] at h <;>
        first
          | exact absurd rfl h
          | (by_cases hr : r' = r
             · simp [isInboundTo, hr]
             · rw [if_neg hr] at h
               exact absurd rfl h)

theorem isInboundTo_of_lastLangEv (e : Ev) (r : RoomId)
    (h : lastLangEv e r ≠ none) : isInboundTo e r = true := by
  cases e with
  | join fails now ws r' u un => exact absurd rfl h
  | leave fails ws r' u => exact absurd rfl h
  | inbound fails mid now ws r' u un m =>
      cases m <;> simp only [lastLangEv] at h <;>
        first
          | exact absurd rfl h
          | (by_cases hr : r' = r
             · simp [isInboundTo, hr]
             · rw [if_neg hr] at h
               exact absurd rfl h)

/-- In a router-producible trace with no join to `r`, no `code_update` or
`language_change` for `r` can have occurred. -/
theorem lastCode_lastLang_none_of_not_joined (t : List Ev) (r : RoomId)
    (hwf : joinFirst t r) (hnj : joinedIn t r = false) :
    lastCode t r = none ∧ lastLang t r = none := by
  induction t using List.reverseRecOn with
  | nil => exact ⟨rfl, rfl⟩
  | append_singleton t e ih =>
      obtain ⟨hwf', himp⟩ := joinFirst_append t e r hwf
      rw [joinedIn_append] at hnj
      have hnj' : joinedIn t r = false := by
        cases hj : joinedIn t r
        · rfl
        · rw [hj] at hnj
          simp at hnj
      have hni : isInboundTo e r ≠ true := by
        intro hin
        rw [himp hin] at hnj'
        exact absurd hnj' (by simp)
      obtain ⟨ihc, ihl⟩ := ih hwf' hnj'
      rw [lastCode_append, lastLang_append]
      have hce : lastCodeEv e r = none := by
        by_contra hc
        exact hni (isInboundTo_of_lastCodeEv e r hc)
      have hle : lastLangEv e r = none := by
        by_contra hc
        exact hni (isInboundTo_of_lastLangEv e r hc)
      rw [hce, hle]
      exact ⟨ihc, ihl⟩


/-! ### C2: step-level effect lemmas. -/

theorem stepEv_join_cm (sys : Sys) (fs : WS → Bool) (now : String) (ws : WS)
    (r' : RoomId) (uid un : String) :
    (stepEv sys (.join fs now ws r' uid un)).cm =
      (wsJoin fs now sys.cm sys.db ws r' uid un).1 := rfl

theorem stepEv_join_db (sys : Sys) (fs : WS → Bool) (now : String) (ws : WS)
    (r' : RoomId) (uid un : String) :
    (stepEv sys (.join fs now ws r' uid un)).db =
      (wsJoin fs now sys.cm sys.db ws r' uid un).2.1 := rfl

theorem stepEv_inbound_cm (sys : Sys) (fs : WS → Bool) (mid now : String)
    (ws : WS) (r' : RoomId) (uid un : String) (m : Inbound) :
    (stepEv sys (.inbound fs mid now ws r' uid un m)).cm =
      (handleMessage fs mid now sys.cm sys.db ws r' uid un m).1 := rfl

theorem stepEv_inbound_db (sys : Sys) (fs : WS → Bool) (mid now : String)
    (ws : WS) (r' : RoomId) (uid un : String) (m : Inbound) :
    (stepEv sys (.inbound fs mid now ws r' uid un m)).db =
      (handleMessage fs mid now sys.cm sys.db ws r' uid un m).2.1 := rfl

theorem stepEv_leave_cm (sys : Sys) (fs : WS → Bool) (ws : WS) (r' : RoomId)
    (uid : String) :
    (stepEv sys (.leave fs ws r' uid)).cm =
      (wsLeave fs sys.cm sys.db ws r' uid).1 := rfl

theorem stepEv_leave_db (sys : Sys) (fs : WS → Bool) (ws : WS) (r' : RoomId)
    (uid : String) :
    (stepEv sys (.leave fs ws r' uid)).db =
      (wsLeave fs sys.cm sys.db ws r' uid).2.1 := rfl

theorem wsJoin_cm_code (fails : WS → Bool) (now : String) (s : CMState)
    (db : DB) (ws : WS) (r' : RoomId) (uid un : String) :
    (wsJoin fails now s db ws r' uid un).1.room_code_cache =
      match RoomService.get_room db r' with
      | some room =>
          if (alookup s.room_code_cache r').isNone then
            aput s.room_code_cache r' room.code_content
          else s.room_code_cache
      | none => s.room_code_cache := by
  unfold wsJoin
  cases hg : RoomService.get_room db r'
  · exact (connect_fields _ _ _ _ _ _ _ _).1
  · by_cases hc : (alookup s.room_code_cache r').isNone = true <;>
      simp only [hc, if_true, Bool.false_eq_true, if_false] <;>
        exact (connect_fields _ _ _ _ _ _ _ _).1

theorem wsJoin_cm_lang (fails : WS → Bool) (now : String) (s : CMState)
    (db : DB) (ws : WS) (r' : RoomId) (uid un : String) :
    (wsJoin fails now s db ws r' uid un).1.room_language_cache =
      match RoomService.get_room db r' with
      | some room =>
          if (alookup s.room_code_cache r').isNone then
            aput s.room_language_cache r' room.language
          else s.room_language_cache
      | none => s.room_language_cache := by
  unfold wsJoin
  cases hg : RoomService.get_room db r'
  · exact (connect_fields _ _ _ _ _ _ _ _).2
  · by_cases hc : (alookup s.room_code_cache r').isNone = true <;>
      simp only [hc, if_true, Bool.false_eq_true, if_false] <;>
        exact (connect_fields _ _ _ _ _ _ _ _).2

theorem wsJoin_db (fails : WS → Bool) (now : String) (s : CMState) (db : DB)
    (ws : WS) (r' : RoomId) (uid un : String) :
    (wsJoin fails now s db ws r' uid un).2.1 =
      match RoomService.get_room db r' with
      | some _ => RoomService.update_active_users db r' 1
      | none => db := by
  unfold wsJoin
  cases hg : RoomService.get_room db r'
  · rfl
  · by_cases hc : (alookup s.room_code_cache r').isNone = true <;>
      simp only [hc, if_true, Bool.false_eq_true, if_false]

theorem wsLeave_cm_code (fails : WS → Bool) (s : CMState) (db : DB) (ws : WS)
    (r' : RoomId) (u : UserId) :
    (wsLeave fails s db ws r' u).1.room_code_cache = s.room_code_cache := by
  unfold wsLeave
  exact ((broadcast_fields _ _ _ _ _).1).trans (disconnect_fields _ _ _ _).1

theorem wsLeave_cm_lang (fails : WS → Bool) (s : CMState) (db : DB) (ws : WS)
    (r' : RoomId) (u : UserId) :
    (wsLeave fails s db ws r' u).1.room_language_cache = s.room_language_cache := by
  unfold wsLeave
  exact ((broadcast_fields _ _ _ _ _).2.1).trans (disconnect_fields _ _ _ _).2

theorem wsLeave_db (fails : WS → Bool) (s : CMState) (db : DB) (ws : WS)
    (r' : RoomId) (u : UserId) :
    (wsLeave fails s db ws r' u).2.1 =
      RoomService.update_active_users db r' (-1) := rfl

theorem handleMessage_effects (fs : WS → Bool) (mid now : String)
    (s : CMState) (db : DB) (ws : WS) (r' : RoomId) (uid un : String)
    (m : Inbound) :
    ((handleMessage fs mid now s db ws r' uid un m).1.room_code_cache =
       match m with
       | .code_update code _ => aput s.room_code_cache r' code
       | _ => s.room_code_cache) ∧
    ((handleMessage fs mid now s db ws r' uid un m).1.room_language_cache =
       match m with
       | .language_change l => aput s.room_language_cache r' l
       | _ => s.room_language_cache) ∧
    ((handleMessage fs mid now s db ws r' uid un m).2.1 =
       match m with
       | .code_update code _ => RoomService.update_room_code db r' code
       | .language_change l => RoomService.update_room_language db r' l
       | _ => db) := by
  cases m with
  | code_update code cp =>
      exact ⟨(handle_code_update_fields _ _ _ _ _ _ _ _ _).1,
             (handle_code_update_fields _ _ _ _ _ _ _ _ _).2, rfl⟩
  | cursor_update cp sel =>
      exact ⟨(handle_cursor_update_fields _ _ _ _ _ _ _ _).1,
             (handle_cursor_update_fields _ _ _ _ _ _ _ _).2, rfl⟩
  | chat_message content mt =>
      by_cases ht : content.trim = ""
      · simp only [handleMessage, if_pos ht]
        refine ⟨?_, ?_, ?_⟩ <;> trivial
      · simp only [handleMessage, if_neg ht]
        refine ⟨(handle_chat_message_fields _ _ _ _ _ _ _ _ _).1,
               (handle_chat_message_fields _ _ _ _ _ _ _ _ _).2, ?_⟩
        trivial
  | typing_start =>
      exact ⟨(handle_typing_start_fields _ _ _ _ _ _).1,
             (handle_typing_start_fields _ _ _ _ _ _).2, rfl⟩
  | typing_stop =>
      exact ⟨(handle_typing_stop_fields _ _ _ _ _ _).1,
             (handle_typing_stop_fields _ _ _ _ _ _).2, rfl⟩
  | language_change l =>
      exact ⟨(handle_language_change_fields _ _ _ _ _ _).1,
             (handle_language_change_fields _ _ _ _ _ _).2, rfl⟩
  | ping => exact ⟨rfl, rfl, rfl⟩
  | unknown t0 => exact ⟨rfl, rfl, rfl⟩
  | malformed => exact ⟨rfl, rfl, rfl⟩


set_option maxHeartbeats 2000000 in
/-- Cache correctness over router-producible traces: the manager's code and
language caches for room `r` always hold the last value set by a
`code_update` / `language_change` for `r` (primed from the durable row on the
first join); while no `code_update` (resp. `language_change`) for `r` has
occurred, the durable row still carries its original code (resp. language);
and the row's presence never changes. -/
theorem run_cache_invariant (db0 : DB) (r : RoomId) (t : List Ev)
    (hwf : joinFirst t r) :
    alookup (run t (initialSys db0)).cm.room_code_cache r =
      (match lastCode t r with
       | some c => some c
       | none => if joinedIn t r = true then (alookup db0 r).map DRoom.code_content else none) ∧
    alookup (run t (initialSys db0)).cm.room_language_cache r =
      (match lastLang t r with
       | some l => some l
       | none => if joinedIn t r = true then (alookup db0 r).map DRoom.language else none) ∧
    (lastCode t r = none →
      (alookup (run t (initialSys db0)).db r).map DRoom.code_content =
        (alookup db0 r).map DRoom.code_content) ∧
    (lastLang t r = none →
      (alookup (run t (initialSys db0)).db r).map DRoom.language =
        (alookup db0 r).map DRoom.language) ∧
    (alookup (run t (initialSys db0)).db r).isSome = (alookup db0 r).isSome := by
  induction t using List.reverseRecOn with
  | nil => exact ⟨rfl, rfl, fun _ => rfl, fun _ => rfl, rfl⟩
  | append_singleton t e ih =>
      obtain ⟨hwf2, himp⟩ := joinFirst_append t e r hwf
      obtain ⟨ih1, ih2, ih3, ih4, ih5⟩ := ih hwf2
      rw [run_append, lastCode_append, lastLang_append, joinedIn_append]
      cases e with
      | join fs now ws r' uid un =>
          rw [stepEv_join_cm, stepEv_join_db, wsJoin_cm_code, wsJoin_cm_lang, wsJoin_db]
          simp only [lastCodeEv, lastLangEv, isJoinTo]
          cases hg : RoomService.get_room (run t (initialSys db0)).db r' with
          | none =>
              simp only [hg]
              by_cases hr' : r' = r
              · subst hr'
                have h0 : alookup db0 r' = none := by
                  cases ho : alookup db0 r' with
                  | none => rfl
                  | some v =>
                      have h1 : (alookup (run t (initialSys db0)).db r').isSome = false := by
                        unfold RoomService.get_room at hg
                        rw [hg]
                        rfl
                      rw [ih5, ho] at h1
                      simp at h1
                refine ⟨?_, ?_, fun h => ih3 h, fun h => ih4 h, ih5⟩
                · rw [ih1, h0]
                  cases lastCode t r' <;> simp
                · rw [ih2, h0]
                  cases lastLang t r' <;> simp
              · have hb : (r' == r) = false := by
                  rw [beq_eq_false_iff_ne]
                  exact hr'
                simp only [hb, Bool.or_false]
                exact ⟨ih1, ih2, fun h => ih3 h, fun h => ih4 h, ih5⟩
          | some room =>
              simp only [hg]
              by_cases hr' : r' = r
              · subst hr'
                have hrow : alookup (run t (initialSys db0)).db r' = some room := by
                  unfold RoomService.get_room at hg
                  exact hg
                have hsome0 : (alookup db0 r').isSome = true := by
                  rw [← ih5, hrow]
                  rfl
                obtain ⟨dr0, hdr0⟩ := Option.isSome_iff_exists.mp hsome0
                by_cases hc : (alookup (run t (initialSys db0)).cm.room_code_cache r').isNone = true
                · have hlc : lastCode t r' = none := by
                    cases hlc0 : lastCode t r' with
                    | none => rfl
                    | some c =>
                        rw [ih1, hlc0] at hc
                        simp at hc
                  have hnj : joinedIn t r' = false := by
                    cases hj : joinedIn t r' with
                    | false => rfl
                    | true =>
                        rw [ih1] at hc
                        simp only [hlc, hj, hdr0] at hc
                        simp at hc
                  have hll : lastLang t r' = none :=
                    (lastCode_lastLang_none_of_not_joined t r' hwf2 hnj).2
                  have hcode : room.code_content = dr0.code_content := by
                    have h2 := ih3 hlc
                    rw [hrow, hdr0] at h2
                    simpa using h2
                  have hlang : room.language = dr0.language := by
                    have h2 := ih4 hll
                    rw [hrow, hdr0] at h2
                    simpa using h2
                  refine ⟨?_, ?_, ?_, ?_, ?_⟩
                  · rw [if_pos hc, alookup_aput, if_pos rfl, hlc, hdr0]
                    simp [hcode]
                  · rw [if_pos hc, alookup_aput, if_pos rfl, hll, hdr0]
                    simp [hlang]
                  · intro h
                    rw [(get_room_update_active_users _ _ _ _).1]
                    exact ih3 h
                  · intro h
                    rw [(get_room_update_active_users _ _ _ _).2.1]
                    exact ih4 h
                  · rw [(get_room_update_active_users _ _ _ _).2.2]
                    exact ih5
                · have hc2 : (alookup (run t (initialSys db0)).cm.room_code_cache r').isNone = false := by
                    cases hx : (alookup (run t (initialSys db0)).cm.room_code_cache r').isNone with
                    | false => rfl
                    | true => exact absurd hx hc
                  refine ⟨?_, ?_, ?_, ?_, ?_⟩
                  · rw [if_neg hc]
                    cases hlc : lastCode t r' with
                    | some c =>
                        rw [ih1, hlc]
                    | none =>
                        cases hj : joinedIn t r' with
                        | true =>
                            rw [ih1]
                            simp only [hlc, hj]
                            simp
                        | false =>
                            exfalso
                            rw [ih1] at hc2
                            simp only [hlc, hj] at hc2
                            simp at hc2
                  · rw [if_neg hc]
                    cases hll : lastLang t r' with
                    | some l =>
                        rw [ih2, hll]
                    | none =>
                        cases hj : joinedIn t r' with
                        | true =>
                            rw [ih2]
                            simp only [hll, hj]
                            simp
                        | false =>
                            exfalso
                            have hlc : lastCode t r' = none :=
                              (lastCode_lastLang_none_of_not_joined t r' hwf2 hj).1
                            rw [ih1] at hc2
                            simp only [hlc, hj] at hc2
                            simp at hc2
                  · intro h
                    rw [(get_room_update_active_users _ _ _ _).1]
                    exact ih3 h
                  · intro h
                    rw [(get_room_update_active_users _ _ _ _).2.1]
                    exact ih4 h
                  · rw [(get_room_update_active_users _ _ _ _).2.2]
                    exact ih5
              · have hb : (r' == r) = false := by
                  rw [beq_eq_false_iff_ne]
                  exact hr'
                have hner : r ≠ r' := fun h => hr' h.symm
                simp only [hb, Bool.or_false]
                refine ⟨?_, ?_, ?_, ?_, ?_⟩
                · by_cases hc : (alookup (run t (initialSys db0)).cm.room_code_cache r').isNone = true
                  · rw [if_pos hc, alookup_aput, if_neg hner]
                    exact ih1
                  · rw [if_neg hc]
                    exact ih1
                · by_cases hc : (alookup (run t (initialSys db0)).cm.room_code_cache r').isNone = true
                  · rw [if_pos hc, alookup_aput, if_neg hner]
                    exact ih2
                  · rw [if_neg hc]
                    exact ih2
                · intro h
                  rw [(get_room_update_active_users _ _ _ _).1]
                  exact ih3 h
                · intro h
                  rw [(get_room_update_active_users _ _ _ _).2.1]
                  exact ih4 h
                · rw [(get_room_update_active_users _ _ _ _).2.2]
                  exact ih5
      | inbound fs mid now ws r' uid un m =>
          rw [stepEv_inbound_cm, stepEv_inbound_db]
          obtain ⟨hm1, hm2, hm3⟩ := handleMessage_effects fs mid now
            (run t (initialSys db0)).cm (run t (initialSys db0)).db ws r' uid un m
          cases m with
          | code_update code cp =>
              simp only [hm1, hm2, hm3, lastCodeEv, lastLangEv, isJoinTo, Bool.or_false]
              refine ⟨?_, ?_, ?_, ?_, ?_⟩
              · by_cases hr' : r' = r
                · subst hr'
                  simp [alookup_aput]
                · have hner : r ≠ r' := fun h => hr' h.symm
                  rw [alookup_aput, if_neg hner, if_neg hr']
                  exact ih1
              · exact ih2
              · intro h
                by_cases hr' : r' = r
                · exfalso
                  rw [if_pos hr'] at h
                  simp at h
                · rw [(get_room_update_room_code _ _ _ _).2.2 (fun hh => hr' hh.symm)]
                  rw [if_neg hr'] at h
                  exact ih3 h
              · intro h
                rw [(get_room_update_room_code _ _ _ _).1]
                exact ih4 h
              · rw [(get_room_update_room_code _ _ _ _).2.1]
                exact ih5
          | language_change l =>
              simp only [hm1, hm2, hm3, lastCodeEv, lastLangEv, isJoinTo, Bool.or_false]
              refine ⟨?_, ?_, ?_, ?_, ?_⟩
              · exact ih1
              · by_cases hr' : r' = r
                · subst hr'
                  simp [alookup_aput]
                · have hner : r ≠ r' := fun h => hr' h.symm
                  rw [alookup_aput, if_neg hner, if_neg hr']
                  exact ih2
              · intro h
                rw [(get_room_update_room_language _ _ _ _).1]
                exact ih3 h
              · intro h
                by_cases hr' : r' = r
                · exfalso
                  rw [if_pos hr'] at h
                  simp at h
                · rw [(get_room_update_room_language _ _ _ _).2.2 (fun hh => hr' hh.symm)]
                  rw [if_neg hr'] at h
                  exact ih4 h
              · rw [(get_room_update_room_language _ _ _ _).2.1]
                exact ih5
          | cursor_update cp sel =>
              simp only [hm1, hm2, hm3, lastCodeEv, lastLangEv, isJoinTo, Bool.or_false]
              exact ⟨ih1, ih2, ih3, ih4, ih5⟩
          | chat_message content mt =>
              simp only [hm1, hm2, hm3, lastCodeEv, lastLangEv, isJoinTo, Bool.or_false]
              exact ⟨ih1, ih2, ih3, ih4, ih5⟩
          | typing_start =>
              simp only [hm1, hm2, hm3, lastCodeEv, lastLangEv, isJoinTo, Bool.or_false]
              exact ⟨ih1, ih2, ih3, ih4, ih5⟩
          | typing_stop =>
              simp only [hm1, hm2, hm3, lastCodeEv, lastLangEv, isJoinTo, Bool.or_false]
              exact ⟨ih1, ih2, ih3, ih4, ih5⟩
          | ping =>
              simp only [hm1, hm2, hm3, lastCodeEv, lastLangEv, isJoinTo, Bool.or_false]
              exact ⟨ih1, ih2, ih3, ih4, ih5⟩
          | unknown t0 =>
              simp only [hm1, hm2, hm3, lastCodeEv, lastLangEv, isJoinTo, Bool.or_false]
              exact ⟨ih1, ih2, ih3, ih4, ih5⟩
          | malformed =>
              simp only [hm1, hm2, hm3, lastCodeEv, lastLangEv, isJoinTo, Bool.or_false]
              exact ⟨ih1, ih2, ih3, ih4, ih5⟩
      | leave fs ws r' uid =>
          rw [stepEv_leave_cm, stepEv_leave_db]
          simp only [lastCodeEv, lastLangEv, isJoinTo, Bool.or_false]
          refine ⟨?_, ?_, ?_, ?_, ?_⟩
          · rw [wsLeave_cm_code]
            exact ih1
          · rw [wsLeave_cm_lang]
            exact ih2
          · intro h
            rw [wsLeave_db, (get_room_update_active_users _ _ _ _).1]
            exact ih3 h
          · intro h
            rw [wsLeave_db, (get_room_update_active_users _ _ _ _).2.1]
            exact ih4 h
          · rw [wsLeave_db, (get_room_update_active_users _ _ _ _).2.2]
            exact ih5


/-! ### C2: the join snapshot. -/

/-- The `code` field of a `room_state` frame. -/
def rsCode : Frame → Option String
  | .room_state code _ _ _ _ _ _ => some code
  | _ => none

/-- The `language` field of a `room_state` frame. -/
def rsLanguage : Frame → Option String
  | .room_state _ language _ _ _ _ _ => some language
  | _ => none

/-- The `activeUsers` field of a `room_state` frame. -/
def rsActiveUsers : Frame → Option Nat
  | .room_state _ _ n _ _ _ _ => some n
  | _ => none

/-- With no send failing, `connect` delivers first (before anything else) a
`room_state` frame to the joining socket whose code/language come from the
caches and whose `activeUsers` equals the number of connections the room has
once `connect` returns. -/
theorem connect_noFail_shape (now : String) (s : CMState) (ws : WS)
    (r : RoomId) (u : UserId) (un c0 : String) :
    (connect noFail now s ws r u un c0).2.1.head?.map Prod.fst = some ws ∧
    ((connect noFail now s ws r u un c0).2.1.head?.bind (fun p => rsCode p.2)) =
      some (getCodeCache s r) ∧
    ((connect noFail now s ws r u un c0).2.1.head?.bind (fun p => rsLanguage p.2)) =
      some (getLangCache s r) ∧
    ((connect noFail now s ws r u un c0).2.1.head?.bind (fun p => rsActiveUsers p.2)) =
      some (get_room_users_count (connect noFail now s ws r u un c0).1 r) := by
  unfold connect broadcast_to_room
  by_cases hinit : (alookup s.active_connections r).isNone = true <;>
    simp [hinit, noFail, alookup_aput, getCodeCache, getLangCache,
      get_room_users_count, rsCode, rsLanguage, rsActiveUsers]


/-- The property C2 (as amended) asserts of a join with no send failures at
the end of a router trace `t`: the first delivered frame is the joining
socket's `room_state` snapshot, its `code`/`language` are the last values set
by prior `code_update`/`language_change` events for the room (defaulting to
the durable row's values), and its `activeUsers` equals
`get_room_users_count` right after the join. -/
def JoinSnapshotCorrect (db0 : DB) (r : RoomId) (dr : DRoom) (t : List Ev)
    (ws : WS) (uid un now : String) : Prop :=
  ((wsJoin noFail now (run t (initialSys db0)).cm (run t (initialSys db0)).db ws r uid un).2.2.1.head?.map Prod.fst = some ws) ∧
  ((wsJoin noFail now (run t (initialSys db0)).cm (run t (initialSys db0)).db ws r uid un).2.2.1.head?.bind (fun p => rsCode p.2) =
    some ((lastCode t r).getD dr.code_content)) ∧
  ((wsJoin noFail now (run t (initialSys db0)).cm (run t (initialSys db0)).db ws r uid un).2.2.1.head?.bind (fun p => rsLanguage p.2) =
    some ((lastLang t r).getD dr.language)) ∧
  ((wsJoin noFail now (run t (initialSys db0)).cm (run t (initialSys db0)).db ws r uid un).2.2.1.head?.bind (fun p => rsActiveUsers p.2) =
    some (get_room_users_count (wsJoin noFail now (run t (initialSys db0)).cm (run t (initialSys db0)).db ws r uid un).1 r))

set_option maxHeartbeats 2000000 in
/-- C2 (amended): after any router-producible trace over a durable store
containing room `r`, a join into `r` during which no send fails delivers the
`room_state` snapshot to the joining socket first, with `code`/`language`
equal to the last values set by prior `code_update`/`language_change` events
for `r` (primed from the durable Room on first join) and `activeUsers` equal
to `get_room_users_count(r)` right after the join completes. -/
theorem room_state_snapshot_correct (db0 : DB) (r : RoomId) (dr : DRoom)
    (t : List Ev) (ws : WS) (uid un now : String)
    (hdb : alookup db0 r = some dr) (hwf : joinFirst t r) :
    JoinSnapshotCorrect db0 r dr t ws uid un now := by
  obtain ⟨ih1, ih2, ih3, ih4, ih5⟩ := run_cache_invariant db0 r t hwf
  have hsome : (alookup (run t (initialSys db0)).db r).isSome = true := by
    rw [ih5, hdb]
    rfl
  obtain ⟨row, hrow⟩ := Option.isSome_iff_exists.mp hsome
  have hg : RoomService.get_room (run t (initialSys db0)).db r = some row := hrow
  unfold JoinSnapshotCorrect wsJoin
  simp only [hg]
  by_cases hc : (alookup (run t (initialSys db0)).cm.room_code_cache r).isNone = true
  · -- first join into r: the cache is primed from the durable row
    have hlc : lastCode t r = none := by
      cases hlc0 : lastCode t r with
      | none => rfl
      | some c =>
          rw [ih1, hlc0] at hc
          simp at hc
    have hnj : joinedIn t r = false := by
      cases hj : joinedIn t r with
      | false => rfl
      | true =>
          rw [ih1] at hc
          simp only [hlc, hj, hdb] at hc
          simp at hc
    have hll : lastLang t r = none :=
      (lastCode_lastLang_none_of_not_joined t r hwf hnj).2
    have hcode : row.code_content = dr.code_content := by
      have h2 := ih3 hlc
      rw [hrow, hdb] at h2
      simpa using h2
    have hlang : row.language = dr.language := by
      have h2 := ih4 hll
      rw [hrow, hdb] at h2
      simpa using h2
    rw [if_pos hc]
    obtain ⟨g1, g2, g3, g4⟩ := connect_noFail_shape now
      (set_room_language (set_room_code (run t (initialSys db0)).cm r row.code_content) r row.language)
      ws r uid un (get_color_for_user uid)
    refine ⟨g1, ?_, ?_, g4⟩
    · refine g2.trans ?_
      unfold getCodeCache set_room_language set_room_code
      rw [alookup_aput, if_pos rfl, hlc]
      simp [hcode]
    · refine g3.trans ?_
      unfold getLangCache set_room_language set_room_code
      rw [alookup_aput, if_pos rfl, hll]
      simp [hlang]
  · -- the cache is already populated and is served as-is
    have hjt : joinedIn t r = true := by
      cases hj : joinedIn t r with
      | true => rfl
      | false =>
          exfalso
          have hlc : lastCode t r = none :=
            (lastCode_lastLang_none_of_not_joined t r hwf hj).1
          rw [ih1] at hc
          simp only [hlc, hj] at hc
          simp at hc
    rw [if_neg hc]
    obtain ⟨g1, g2, g3, g4⟩ := connect_noFail_shape now
      (run t (initialSys db0)).cm ws r uid un (get_color_for_user uid)
    refine ⟨g1, ?_, ?_, g4⟩
    · refine g2.trans ?_
      unfold getCodeCache
      rw [ih1]
      cases hlc : lastCode t r with
      | some c => simp
      | none =>
          simp only [hjt, hdb]
          simp
    · refine g3.trans ?_
      unfold getLangCache
      rw [ih2]
      cases hll : lastLang t r with
      | some l => simp
      | none =>
          simp only [hjt, hdb]
          simp


/-- A one-room durable store used in concrete C2 scenarios. -/
def db1 : DB := [("r", ⟨"c0", "python", 1⟩)]

/-- C2 counterexample: if a send fails during the join (here the broadcast of
`user_joined` to the existing member on socket `1`), that member is lazily
evicted, so the snapshot's `activeUsers` (2) exceeds
`get_room_users_count` right after the join completes (1).  The claim as
stated, quantified over every join, is therefore false. -/
theorem join_snapshot_activeusers_mismatch :
    ((wsJoin (fun c => c == 1) "t9" cmA db1 2 "r" "B" "Bob").2.2.1.head?.bind
        (fun p => rsActiveUsers p.2) = some 2) ∧
    get_room_users_count (wsJoin (fun c => c == 1) "t9" cmA db1 2 "r" "B" "Bob").1 "r" = 1 := by
  decide

/-- C2 witness: the very first join into room `r` over the durable store
`db1`, with no send failures. -/
theorem room_state_snapshot_correct_witness :
    alookup db1 "r" = some (⟨"c0", "python", 1⟩ : DRoom) ∧
    joinFirst [] "r" ∧
    JoinSnapshotCorrect db1 "r" ⟨"c0", "python", 1⟩ [] 1 "A" "Alice" "t1" :=
  have hwf : joinFirst [] "r" := by
    intro t1 e t2 h hl
    exact absurd h.symm (by simp)
  ⟨by decide, hwf,
   room_state_snapshot_correct db1 "r" ⟨"c0", "python", 1⟩ [] 1 "A" "Alice" "t1" (by decide) hwf⟩

end PairProg
